import Mathlib

/-!
# Memfault coredump storage on nRF internal flash

A shallow embedding of `modules/memfault/memfault_flash_coredump_storage.c`.

* `uint32_t` and `size_t` are both 32 bits wide on the nRF (Cortex-M) target;
  they are modelled as `Nat` with an explicit `% 2 ^ 32` at every place where
  the C code performs unsigned arithmetic.
* The build-time constants (`PM_MEMFAULT_STORAGE_ADDRESS`,
  `PM_MEMFAULT_STORAGE_SIZE`, `MEMFAULT_COREDUMP_STORAGE_WRITE_SIZE`) and the
  page size reported by `nrfx_nvmc_flash_page_size_get()` are not defined in
  the source file; they are the fields of `Config`.
* The flash is a byte-addressed memory `Nat → Nat` behind a 32-bit address
  bus; every hardware access is also appended to a trace of `HwOp`s.
* The erase loop may fail to terminate once 32-bit wrap-around is taken into
  account, so it is modelled with fuel and returns an `Option`.
-/

namespace MemfaultFlash

/-- Number of values of a `uint32_t` / `size_t` on the target. -/
def U32 : Nat := 2 ^ 32

/-- Build-time constants and device parameters used by the source file. -/
structure Config where
  /-- Absolute address of the coredump partition (`pm_config.h`). -/
  PM_MEMFAULT_STORAGE_ADDRESS : Nat
  /-- Size in bytes of the coredump partition (`pm_config.h`). -/
  PM_MEMFAULT_STORAGE_SIZE : Nat
  /-- Size in bytes of `sCoredumpWorkingBuffer.data`. -/
  MEMFAULT_COREDUMP_STORAGE_WRITE_SIZE : Nat
  /-- Value returned by `nrfx_nvmc_flash_page_size_get()`. -/
  page_size : Nat

/-- The constants are representable on the target, the partition lies inside
the 32-bit address space and starts on a page boundary, and the static
assertion of `buffered_write` holds. -/
structure Config.WellFormed (cfg : Config) : Prop where
  address_lt : cfg.PM_MEMFAULT_STORAGE_ADDRESS < U32
  size_lt : cfg.PM_MEMFAULT_STORAGE_SIZE < U32
  region_fits : cfg.PM_MEMFAULT_STORAGE_ADDRESS + cfg.PM_MEMFAULT_STORAGE_SIZE ≤ U32
  page_size_pos : 0 < cfg.page_size
  page_size_lt : cfg.page_size < U32
  address_aligned : cfg.PM_MEMFAULT_STORAGE_ADDRESS % cfg.page_size = 0
  write_size_lt : cfg.MEMFAULT_COREDUMP_STORAGE_WRITE_SIZE < U32
  write_size_words : cfg.MEMFAULT_COREDUMP_STORAGE_WRITE_SIZE % 4 = 0

/-- The fields of `sMfltCoredumpStorageInfo`; the source sets `size` only, the
compound literal zero-initialises the rest. -/
structure sMfltCoredumpStorageInfo where
  size : Nat
  sector_size : Nat
  deriving DecidableEq

/-- Source lines 15-20. -/
def memfault_platform_coredump_storage_get_info (cfg : Config) : sMfltCoredumpStorageInfo :=
  { size := cfg.PM_MEMFAULT_STORAGE_SIZE, sector_size := 0 }

/-- Source lines 22-28: `offset + data_len` is a 32-bit unsigned sum. -/
def prv_op_within_flash_bounds (cfg : Config) (offset data_len : Nat) : Bool :=
  let info := memfault_platform_coredump_storage_get_info cfg
  decide ((offset + data_len) % U32 ≤ info.size)

/-! ## Hardware model -/

/-- A hardware access issued by the module, in program order. -/
inductive HwOp where
  /-- A `memcpy` of `read_len` bytes out of memory-mapped flash at `address`. -/
  | flash_read (address read_len : Nat)
  /-- A call `nrfx_nvmc_page_erase(address)`. -/
  | nrfx_nvmc_page_erase (address : Nat)
  /-- A call `nrfx_nvmc_words_write(addr, src, num_words)`; `src` holds the words. -/
  | nrfx_nvmc_words_write (addr : Nat) (src : List Nat) (num_words : Nat)
  /-- A call `flash_area_open(PM_MEMFAULT_STORAGE_ID, &flash_area)`. -/
  | flash_area_open
  /-- A call `flash_area_write(flash_area, off, src, len)`; `src` holds the bytes. -/
  | flash_area_write (off : Nat) (src : List Nat) (len : Nat)
  deriving DecidableEq

/-- The flash contents, the file-scope static `s_last_coredump_cleared`, and
the hardware accesses issued so far. -/
structure State where
  flash : Nat → Nat
  s_last_coredump_cleared : Bool
  trace : List HwOp

/-- State at process start: the static is zero-initialised. -/
def State.init (flash : Nat → Nat) : State :=
  { flash := flash, s_last_coredump_cleared := false, trace := [] }

/-- Modelled from the spec: the FlashDevice capability `memory_mapped_read`
(the nRF memory map is not part of the source): the byte behind a 32-bit
address. -/
def memory_mapped_read (flash : Nat → Nat) (address : Nat) : Nat :=
  flash (address % U32)

/-- The C library call `memcpy(data, (void *)address, n)` with a source in memory-mapped
flash: the first `n` bytes of the buffer are replaced. -/
def memcpy_from_flash (flash : Nat → Nat) (data : List Nat) (address n : Nat) : List Nat :=
  (List.range n).map (fun i => memory_mapped_read flash (address + i)) ++ data.drop n

/-- The C library call `memset(data, c, n)`: `c` is converted to `unsigned char`. -/
def memset (data : List Nat) (c n : Nat) : List Nat :=
  List.replicate n (c % 256) ++ data.drop n

/-- The value every byte of an erased flash page reads as. -/
def ERASED : Nat := 0xFF

/-- Modelled from the spec: the FlashDevice capability `erase_page`
(`nrfx_nvmc_page_erase` is not part of the source): the whole aligned page
that holds `address` is reset to the erased state. -/
def page_erase_flash (page_size : Nat) (flash : Nat → Nat) (address : Nat) : Nat → Nat :=
  fun a => if a / page_size = address / page_size then ERASED else flash a

/-- Programming one flash byte can only clear bits. -/
def program_byte (flash : Nat → Nat) (address value : Nat) : Nat → Nat :=
  fun a => if a = address % U32 then flash a &&& value else flash a

/-- Byte `k` of a little-endian 32-bit word. -/
def word_byte (value k : Nat) : Nat := value / 256 ^ k % 256

/-- Programming of one word at `addr` (four consecutive bytes, little-endian). -/
def nvmc_word_write (flash : Nat → Nat) (addr value : Nat) : Nat → Nat :=
  program_byte
    (program_byte
      (program_byte
        (program_byte flash addr (word_byte value 0))
        (addr + 1) (word_byte value 1))
      (addr + 2) (word_byte value 2))
    (addr + 3) (word_byte value 3)

/-- Modelled from the spec: the FlashDevice capability `program_words`
(`nrfx_nvmc_words_write` is not part of the source): the words are programmed
one after the other at `addr`, `addr + 4`, ... -/
def words_write_flash (flash : Nat → Nat) (addr : Nat) : List Nat → Nat → Nat
  | [] => flash
  | w :: ws => words_write_flash (nvmc_word_write flash addr w) (addr + 4) ws

/-- Programming of a run of bytes at `address`, `address + 1`, ... -/
def program_bytes (flash : Nat → Nat) (address : Nat) : List Nat → Nat → Nat
  | [] => flash
  | b :: bs => program_bytes (program_byte flash address b) (address + 1) bs

/-- Word `i` of a byte buffer read through a `uint32_t *` (little-endian). -/
def load_word (src : List Nat) (i : Nat) : Nat :=
  src.getD (4 * i) 0 + 256 * src.getD (4 * i + 1) 0
    + 256 ^ 2 * src.getD (4 * i + 2) 0 + 256 ^ 3 * src.getD (4 * i + 3) 0

/-- The first `num_words` words of a byte buffer. -/
def load_words (src : List Nat) (num_words : Nat) : List Nat :=
  (List.range num_words).map (load_word src)

/-- The four bytes of a 32-bit word in memory order. -/
def word_bytes (value : Nat) : List Nat :=
  [word_byte value 0, word_byte value 1, word_byte value 2, word_byte value 3]

/-- The bytes of a run of words in memory order. -/
def words_to_bytes : List Nat → List Nat
  | [] => []
  | w :: ws => word_bytes w ++ words_to_bytes ws

/-- Effect of `nrfx_nvmc_page_erase(address)` on the state. -/
def nrfx_nvmc_page_erase (cfg : Config) (address : Nat) (s : State) : State :=
  { s with
    flash := page_erase_flash cfg.page_size s.flash address
    trace := s.trace ++ [HwOp.nrfx_nvmc_page_erase address] }

/-- Effect of `nrfx_nvmc_words_write(addr, src, num_words)` on the state; `src`
points at a byte buffer. -/
def nrfx_nvmc_words_write (addr : Nat) (src : List Nat) (num_words : Nat) (s : State) : State :=
  { s with
    flash := words_write_flash s.flash addr (load_words src num_words)
    trace := s.trace ++ [HwOp.nrfx_nvmc_words_write addr (load_words src num_words) num_words] }

/-- Modelled from the spec: the AsyncFlashArea capability `write` (Zephyr's
`flash_area_write` is not part of the source). The area of the coredump
partition starts at `PM_MEMFAULT_STORAGE_ADDRESS`; the call is treated as
synchronous: when it reports `err = 0` the `len` bytes are programmed at
offset `off` of the area, otherwise the flash is left as it was. -/
def flash_area_write (cfg : Config) (off : Nat) (src : List Nat) (len : Nat) (err : Int)
    (s : State) : State :=
  { s with
    flash :=
      if err = 0 then
        program_bytes s.flash (cfg.PM_MEMFAULT_STORAGE_ADDRESS + off) (src.take len)
      else s.flash
    trace := s.trace ++ [HwOp.flash_area_write off src len] }

/-- The call `flash_area_open(PM_MEMFAULT_STORAGE_ID, &flash_area)` is
recorded in the trace; its result is supplied by the environment. -/
def flash_area_open (s : State) : State :=
  { s with trace := s.trace ++ [HwOp.flash_area_open] }

/-! ## The operations of the module -/

/-- The type `sCoredumpWorkingBuffer` of the Memfault SDK: a byte buffer of
`MEMFAULT_COREDUMP_STORAGE_WRITE_SIZE` bytes and its destination offset. -/
structure sCoredumpWorkingBuffer where
  data : List Nat
  write_offset : Nat
  deriving DecidableEq

/-- Source lines 34-45. Returns the result, the caller's buffer and the state. -/
def memfault_platform_coredump_storage_read (cfg : Config) (offset : Nat) (data : List Nat)
    (read_len : Nat) (s : State) : Bool × List Nat × State :=
  if !prv_op_within_flash_bounds cfg offset read_len then
    (false, data, s)
  else
    let address := (cfg.PM_MEMFAULT_STORAGE_ADDRESS + offset) % U32
    (true, memcpy_from_flash s.flash data address read_len,
      { s with trace := s.trace ++ [HwOp.flash_read address read_len] })

/-- Source lines 64-68: the loop
`for (size_t page = offset; page < erase_size; page += page_size)`, with the
first argument bounding the number of iterations. -/
def erase_loop (cfg : Config) (erase_size : Nat) : Nat → Nat → State → Option State
  | 0, page, s => if page < erase_size then none else some s
  | fuel + 1, page, s =>
    if page < erase_size then
      let address := (cfg.PM_MEMFAULT_STORAGE_ADDRESS + page) % U32
      erase_loop cfg erase_size fuel ((page + cfg.page_size) % U32)
        (nrfx_nvmc_page_erase cfg address s)
    else some s

/-- Source lines 52-71. `none` means the loop did not finish within `fuel`
iterations. -/
def memfault_platform_coredump_storage_erase (cfg : Config) (fuel : Nat)
    (offset erase_size : Nat) (s : State) : Option (Bool × State) :=
  if !prv_op_within_flash_bounds cfg offset erase_size then
    some (false, s)
  else
    let page_size := cfg.page_size
    if offset % page_size ≠ 0 then
      some (false, s)
    else
      (erase_loop cfg erase_size fuel offset s).map (fun s' => (true, s'))

/-- Source lines 78-92; `sizeof(uint32_t)` is 4. -/
def memfault_platform_coredump_storage_buffered_write (cfg : Config)
    (blk : sCoredumpWorkingBuffer) (s : State) : Bool × State :=
  if !prv_op_within_flash_bounds cfg blk.write_offset
      cfg.MEMFAULT_COREDUMP_STORAGE_WRITE_SIZE then
    (false, s)
  else
    let start_addr := cfg.PM_MEMFAULT_STORAGE_ADDRESS
    let addr := (start_addr + blk.write_offset) % U32
    (true, nrfx_nvmc_words_write addr blk.data
      (cfg.MEMFAULT_COREDUMP_STORAGE_WRITE_SIZE / 4) s)

/-- Source lines 101-110. -/
def memfault_coredump_read (cfg : Config) (offset : Nat) (data : List Nat)
    (read_len : Nat) (s : State) : Bool × List Nat × State :=
  if s.s_last_coredump_cleared then
    (true, memset data 0x0 read_len, s)
  else
    memfault_platform_coredump_storage_read cfg offset data read_len s

/-- Source lines 117-136. `open_err` and `write_err` are the values returned
by `flash_area_open` and `flash_area_write`; the second is only consulted when
the first is 0. -/
def memfault_platform_coredump_storage_clear (cfg : Config) (open_err write_err : Int)
    (s : State) : State :=
  let s1 := flash_area_open s
  if open_err ≠ 0 then
    s1
  else
    let empty_word := 0x0
    let s2 := flash_area_write cfg 0x0 (word_bytes empty_word) 4 write_err s1
    if write_err ≠ 0 then
      s2
    else
      { s2 with s_last_coredump_cleared := true }

/-- The hardware accesses issued between state `s` and a later state `s'`. -/
def issued_since (s s' : State) : List HwOp :=
  s'.trace.drop s.trace.length

/-- Number of terms of the progression `offset, offset + ps, ...` that lie
strictly below `erase_size`: the ceiling of `(erase_size - offset) / ps`. -/
def erase_page_count (offset erase_size ps : Nat) : Nat :=
  (erase_size - offset + ps - 1) / ps

/-- State after page erases at the given region offsets, in list order. -/
def erase_pages (cfg : Config) : List Nat → State → State
  | [], s => s
  | page :: pages, s =>
    erase_pages cfg pages
      (nrfx_nvmc_page_erase cfg ((cfg.PM_MEMFAULT_STORAGE_ADDRESS + page) % U32) s)

/-! ## Sequences of operations -/

/-- One call into the module, with its arguments and, for `clear`, the results
the flash-area layer returns. -/
inductive Op where
  | get_info
  | storage_read (offset : Nat) (data : List Nat) (read_len : Nat)
  | storage_erase (offset erase_size : Nat)
  | storage_buffered_write (blk : sCoredumpWorkingBuffer)
  | coredump_read (offset : Nat) (data : List Nat) (read_len : Nat)
  | storage_clear (open_err write_err : Int)
  deriving DecidableEq

/-- A `clear` whose two flash-area calls both return 0. -/
def Op.isSuccessfulClear : Op → Bool
  | Op.storage_clear open_err write_err => decide (open_err = 0) && decide (write_err = 0)
  | _ => false

/-- State after one call (`none` when an erase does not finish within `fuel`). -/
def step (cfg : Config) (fuel : Nat) : Op → State → Option State
  | Op.get_info, s => some s
  | Op.storage_read offset data read_len, s =>
    some (memfault_platform_coredump_storage_read cfg offset data read_len s).2.2
  | Op.storage_erase offset erase_size, s =>
    (memfault_platform_coredump_storage_erase cfg fuel offset erase_size s).map Prod.snd
  | Op.storage_buffered_write blk, s =>
    some (memfault_platform_coredump_storage_buffered_write cfg blk s).2
  | Op.coredump_read offset data read_len, s =>
    some (memfault_coredump_read cfg offset data read_len s).2.2
  | Op.storage_clear open_err write_err, s =>
    some (memfault_platform_coredump_storage_clear cfg open_err write_err s)

/-- State after a sequence of calls. -/
def run (cfg : Config) (fuel : Nat) : List Op → State → Option State
  | [], s => some s
  | op :: ops, s => (step cfg fuel op s).bind (run cfg fuel ops)


/-- The scenario of the specification: a 4096-byte region at `0x000FE000`,
256-byte pages and a 64-byte working buffer. -/
def cfg4096 : Config :=
  { PM_MEMFAULT_STORAGE_ADDRESS := 0x000FE000
    PM_MEMFAULT_STORAGE_SIZE := 4096
    MEMFAULT_COREDUMP_STORAGE_WRITE_SIZE := 64
    page_size := 256 }

/-- Scenario state after the page erase issued by `storage_erase(0, 256)`. -/
def scenario_after_erase (flash : Nat → Nat) : State :=
  nrfx_nvmc_page_erase cfg4096 0x000FE000 (State.init flash)

/-- Scenario state after the buffered write of `data` at offset 0. -/
def scenario_after_write (flash : Nat → Nat) (data : List Nat) : State :=
  (memfault_platform_coredump_storage_buffered_write cfg4096
    { data := data, write_offset := 0 } (scenario_after_erase flash)).2

/-- Scenario state after the raw read of 64 bytes at offset 0. -/
def scenario_after_read (flash : Nat → Nat) (data buf : List Nat) : State :=
  (memfault_platform_coredump_storage_read cfg4096 0 buf 64
    (scenario_after_write flash data)).2.2

/-- Scenario state after a clear whose flash-area calls both return 0. -/
def scenario_after_clear (flash : Nat → Nat) (data buf : List Nat) : State :=
  memfault_platform_coredump_storage_clear cfg4096 0 0 (scenario_after_read flash data buf)

/-- A state reached after a successful clear followed by two further calls. -/
def witness_state_after_clear : State :=
  (memfault_coredump_read cfg4096 0 [] 8
    (memfault_platform_coredump_storage_buffered_write cfg4096
      { data := List.range 64, write_offset := 64 }
      (memfault_platform_coredump_storage_clear cfg4096 0 0
        (State.init (fun _ => 0xAB)))).2).2.2

/-- A state reached by an erase of the first page and a clear whose write fails. -/
def witness_state_no_clear : State :=
  memfault_platform_coredump_storage_clear cfg4096 0 (-5)
    (nrfx_nvmc_page_erase cfg4096 0x000FE000 (State.init (fun _ => 0xAB)))

/-! ## Flash programming lemmas -/

/-- The scenario configuration satisfies every assumption on the constants. -/
theorem cfg4096_wellFormed : cfg4096.WellFormed :=
  { address_lt := by decide
    size_lt := by decide
    region_fits := by decide
    page_size_pos := by decide
    page_size_lt := by decide
    address_aligned := by decide
    write_size_lt := by decide
    write_size_words := by decide }


theorem program_byte_other (flash : Nat → Nat) (address value a : Nat)
    (h : a ≠ address % U32) : program_byte flash address value a = flash a := by
  simp [program_byte, h]

theorem program_byte_same (flash : Nat → Nat) (address value : Nat) :
    program_byte flash address value (address % U32)
      = flash (address % U32) &&& value := by
  simp [program_byte]

/-- Addresses outside the programmed run keep their byte. -/
theorem program_bytes_other (bs : List Nat) (flash : Nat → Nat) (address a : Nat)
    (h : ∀ j, j < bs.length → a ≠ (address + j) % U32) :
    program_bytes flash address bs a = flash a := by
  induction bs generalizing flash address with
  | nil => rfl
  | cons b bs ih =>
    simp only [program_bytes]
    rw [ih]
    · exact program_byte_other _ _ _ _ (by simpa using h 0 (by simp))
    · intro j hj
      have := h (j + 1) (by simpa using hj)
      rwa [show address + 1 + j = address + (j + 1) by omega]

/-- Byte `j` of the programmed run is and-ed into the flash byte behind it. -/
theorem program_bytes_at (bs : List Nat) (flash : Nat → Nat) (address j : Nat)
    (hj : j < bs.length) (hlen : bs.length ≤ U32) :
    program_bytes flash address bs ((address + j) % U32)
      = flash ((address + j) % U32) &&& bs.getD j 0 := by
  induction bs generalizing flash address j with
  | nil => simp at hj
  | cons b bs ih =>
    simp only [program_bytes]
    simp only [List.length_cons] at hj hlen
    cases j with
    | zero =>
      rw [program_bytes_other]
      · simpa using program_byte_same flash address b
      · intro k hk
        simp only [U32] at hlen ⊢
        omega
    | succ j =>
      have e : address + (j + 1) = address + 1 + j := by omega
      rw [e, ih (program_byte flash address b) (address + 1) j (by omega) (by omega)]
      rw [program_byte_other]
      · simp
      · simp only [U32] at hlen ⊢
        omega

theorem program_bytes_append (xs ys : List Nat) (flash : Nat → Nat) (address : Nat) :
    program_bytes flash address (xs ++ ys)
      = program_bytes (program_bytes flash address xs) (address + xs.length) ys := by
  induction xs generalizing flash address with
  | nil => rfl
  | cons x xs ih =>
    show program_bytes (program_byte flash address x) (address + 1) (xs ++ ys)
      = program_bytes (program_bytes (program_byte flash address x) (address + 1) xs)
          (address + (xs.length + 1)) ys
    rw [ih, show address + 1 + xs.length = address + (xs.length + 1) by omega]

theorem words_write_flash_eq_program_bytes (ws : List Nat) (flash : Nat → Nat) (addr : Nat) :
    words_write_flash flash addr ws = program_bytes flash addr (words_to_bytes ws) := by
  induction ws generalizing flash addr with
  | nil => rfl
  | cons w ws ih =>
    simp only [words_write_flash, words_to_bytes, program_bytes_append, ih]
    rfl

theorem length_words_to_bytes (ws : List Nat) : (words_to_bytes ws).length = 4 * ws.length := by
  induction ws with
  | nil => rfl
  | cons w ws ih => simp [words_to_bytes, word_bytes, ih]; omega

theorem getD_words_to_bytes (ws : List Nat) (j : Nat) (hj : j < 4 * ws.length) :
    (words_to_bytes ws).getD j 0 = word_byte (ws.getD (j / 4) 0) (j % 4) := by
  induction ws generalizing j with
  | nil => simp at hj
  | cons w ws ih =>
    simp only [List.length_cons] at hj
    by_cases h4 : j < 4
    · have hq : j / 4 = 0 := by omega
      have hr : j % 4 = j := by omega
      rw [hq, hr]
      interval_cases j <;> simp [words_to_bytes, word_bytes]
    · obtain ⟨k, rfl⟩ : ∃ k, j = k + 4 := ⟨j - 4, by omega⟩
      have hq : (k + 4) / 4 = k / 4 + 1 := by omega
      have hr : (k + 4) % 4 = k % 4 := by omega
      rw [hq, hr, List.getD_cons_succ, ← ih k (by omega)]
      simp [words_to_bytes, word_bytes, List.getElem?_append_right]

theorem word_byte_load_word (src : List Nat) (hsrc : ∀ b ∈ src, b < 256) (i k : Nat)
    (hk : k < 4) : word_byte (load_word src i) k = src.getD (4 * i + k) 0 := by
  have hb : ∀ n, src.getD n 0 < 256 := by
    intro n
    rw [List.getD_eq_getElem?_getD]
    cases h : src[n]? with
    | none => simp
    | some b => simpa using hsrc b (List.getElem?_mem h)
  have h0 := hb (4 * i)
  have h1 := hb (4 * i + 1)
  have h2 := hb (4 * i + 2)
  have h3 := hb (4 * i + 3)
  unfold word_byte load_word
  interval_cases k
  · simp only [Nat.add_zero, pow_zero, Nat.div_one]
    omega
  all_goals omega

theorem erased_and_byte (b : Nat) (hb : b < 256) : ERASED &&& b = b := by
  have h := Nat.and_pow_two_sub_one_eq_mod b 8
  rw [Nat.and_comm] at h
  have e : ERASED = 2 ^ 8 - 1 := by decide
  rw [e, h]
  exact Nat.mod_eq_of_lt hb

/-- Flash byte `j` of a run of words programmed from a byte buffer. -/
theorem words_write_flash_load_words_at (flash : Nat → Nat) (addr : Nat) (src : List Nat)
    (num_words j : Nat) (hsrc : ∀ b ∈ src, b < 256) (hj : j < 4 * num_words)
    (hlen : 4 * num_words ≤ U32) :
    words_write_flash flash addr (load_words src num_words) ((addr + j) % U32)
      = flash ((addr + j) % U32) &&& src.getD j 0 := by
  have hl : (load_words src num_words).length = num_words := by simp [load_words]
  rw [words_write_flash_eq_program_bytes,
    program_bytes_at _ _ _ j (by rw [length_words_to_bytes, hl]; exact hj)
      (by rw [length_words_to_bytes, hl]; exact hlen),
    getD_words_to_bytes _ _ (by rw [hl]; exact hj)]
  have hq : j / 4 < num_words := by omega
  have e : (load_words src num_words).getD (j / 4) 0 = load_word src (j / 4) := by
    simp [load_words, hq]
  rw [e, word_byte_load_word src hsrc (j / 4) (j % 4) (by omega)]
  congr 2
  omega

/-- Addresses outside a programmed run of words keep their byte. -/
theorem words_write_flash_other (flash : Nat → Nat) (addr : Nat) (ws : List Nat) (a : Nat)
    (h : ∀ j, j < 4 * ws.length → a ≠ (addr + j) % U32) :
    words_write_flash flash addr ws a = flash a := by
  rw [words_write_flash_eq_program_bytes]
  exact program_bytes_other _ _ _ _ (by rw [length_words_to_bytes]; exact h)

/-! ## The delivery flag -/

theorem storage_read_flag (cfg : Config) (offset : Nat) (data : List Nat) (read_len : Nat)
    (s : State) :
    (memfault_platform_coredump_storage_read cfg offset data read_len s).2.2.s_last_coredump_cleared
      = s.s_last_coredump_cleared := by
  unfold memfault_platform_coredump_storage_read
  split <;> rfl

theorem erase_loop_flag (cfg : Config) (erase_size fuel : Nat) (page : Nat) (s s' : State)
    (h : erase_loop cfg erase_size fuel page s = some s') :
    s'.s_last_coredump_cleared = s.s_last_coredump_cleared := by
  induction fuel generalizing page s with
  | zero =>
    simp only [erase_loop] at h
    split at h
    · simp at h
    · simp only [Option.some.injEq] at h
      rw [← h]
  | succ fuel ih =>
    simp only [erase_loop] at h
    split at h
    · rw [ih _ _ h]
      rfl
    · simp only [Option.some.injEq] at h
      rw [← h]

theorem storage_erase_flag (cfg : Config) (fuel offset erase_size : Nat) (s : State)
    (r : Bool × State)
    (h : memfault_platform_coredump_storage_erase cfg fuel offset erase_size s = some r) :
    r.2.s_last_coredump_cleared = s.s_last_coredump_cleared := by
  unfold memfault_platform_coredump_storage_erase at h
  split at h
  · simp only [Option.some.injEq] at h
    rw [← h]
  · simp only at h
    split at h
    · simp only [Option.some.injEq] at h
      rw [← h]
    · simp only [Option.map_eq_some'] at h
      obtain ⟨s', hs', rfl⟩ := h
      exact erase_loop_flag cfg erase_size fuel offset s s' hs'

theorem buffered_write_flag (cfg : Config) (blk : sCoredumpWorkingBuffer) (s : State) :
    (memfault_platform_coredump_storage_buffered_write cfg blk s).2.s_last_coredump_cleared
      = s.s_last_coredump_cleared := by
  unfold memfault_platform_coredump_storage_buffered_write
  split <;> rfl

theorem coredump_read_flag (cfg : Config) (offset : Nat) (data : List Nat) (read_len : Nat)
    (s : State) :
    (memfault_coredump_read cfg offset data read_len s).2.2.s_last_coredump_cleared
      = s.s_last_coredump_cleared := by
  unfold memfault_coredump_read
  split
  · rfl
  · exact storage_read_flag cfg offset data read_len s

theorem storage_clear_flag (cfg : Config) (open_err write_err : Int) (s : State) :
    (memfault_platform_coredump_storage_clear cfg open_err write_err s).s_last_coredump_cleared
      = (s.s_last_coredump_cleared || (decide (open_err = 0) && decide (write_err = 0))) := by
  unfold memfault_platform_coredump_storage_clear
  by_cases ho : open_err = 0 <;> by_cases hw : write_err = 0 <;>
    simp [ho, hw, flash_area_open, flash_area_write]

/-- One call changes the flag only by setting it, and only in a successful clear. -/
theorem step_flag (cfg : Config) (fuel : Nat) (op : Op) (s s' : State)
    (h : step cfg fuel op s = some s') :
    s'.s_last_coredump_cleared = (s.s_last_coredump_cleared || op.isSuccessfulClear) := by
  cases op with
  | get_info =>
    simp only [step, Option.some.injEq] at h
    simp [← h, Op.isSuccessfulClear]
  | storage_read offset data read_len =>
    simp only [step, Option.some.injEq] at h
    simp [← h, Op.isSuccessfulClear, storage_read_flag]
  | storage_erase offset erase_size =>
    simp only [step, Option.map_eq_some'] at h
    obtain ⟨r, hr, rfl⟩ := h
    simp [Op.isSuccessfulClear, storage_erase_flag cfg fuel offset erase_size s r hr]
  | storage_buffered_write blk =>
    simp only [step, Option.some.injEq] at h
    simp [← h, Op.isSuccessfulClear, buffered_write_flag]
  | coredump_read offset data read_len =>
    simp only [step, Option.some.injEq] at h
    simp [← h, Op.isSuccessfulClear, coredump_read_flag]
  | storage_clear open_err write_err =>
    simp only [step, Option.some.injEq] at h
    simp [← h, Op.isSuccessfulClear, storage_clear_flag]

/-- After a sequence of calls the flag is set iff it was set before or the
sequence holds a successful clear. -/
theorem run_flag (cfg : Config) (fuel : Nat) (ops : List Op) (s s' : State)
    (h : run cfg fuel ops s = some s') :
    s'.s_last_coredump_cleared
      = (s.s_last_coredump_cleared || ops.any Op.isSuccessfulClear) := by
  induction ops generalizing s with
  | nil =>
    simp only [run, Option.some.injEq] at h
    simp [← h]
  | cons op ops ih =>
    simp only [run, Option.bind_eq_some] at h
    obtain ⟨s1, h1, h2⟩ := h
    rw [ih s1 h2, step_flag cfg fuel op s s1 h1]
    simp [Bool.or_assoc]

/-! ## The erase loop -/

theorem erase_page_count_spec (offset erase_size ps : Nat) (hps : 0 < ps) :
    (∀ k, k < erase_page_count offset erase_size ps → offset + k * ps < erase_size) ∧
      erase_size ≤ offset + erase_page_count offset erase_size ps * ps := by
  unfold erase_page_count
  have h1 := Nat.div_mul_le_self (erase_size - offset + ps - 1) ps
  have h2 := Nat.lt_div_mul_add (a := erase_size - offset + ps - 1) hps
  constructor
  · intro k hk
    have h3 : (k + 1) * ps ≤ (erase_size - offset + ps - 1) / ps * ps :=
      Nat.mul_le_mul_right ps hk
    rw [Nat.add_mul] at h3
    omega
  · omega

theorem erase_pages_trace (cfg : Config) (pages : List Nat) (s : State) :
    (erase_pages cfg pages s).trace = s.trace ++ pages.map
      (fun p => HwOp.nrfx_nvmc_page_erase ((cfg.PM_MEMFAULT_STORAGE_ADDRESS + p) % U32)) := by
  induction pages generalizing s with
  | nil => simp [erase_pages]
  | cons p ps ih => simp [erase_pages, ih, nrfx_nvmc_page_erase]

/-- When `page += page_size` cannot wrap, the loop runs through the progression
`page, page + ps, ...` below `erase_size` and stops, given that much fuel. -/
theorem erase_loop_eq_erase_pages (cfg : Config) (erase_size : Nat)
    (hnowrap : erase_size + cfg.page_size ≤ U32) (n : Nat) :
    ∀ (fuel page : Nat) (s : State), n ≤ fuel →
      (∀ k, k < n → page + k * cfg.page_size < erase_size) →
      erase_size ≤ page + n * cfg.page_size →
      erase_loop cfg erase_size fuel page s
        = some (erase_pages cfg ((List.range n).map (fun k => page + k * cfg.page_size)) s) := by
  induction n with
  | zero =>
    intro fuel page s _ _ hge
    have hp : ¬ page < erase_size := by omega
    cases fuel <;> simp [erase_loop, hp, erase_pages]
  | succ n ih =>
    intro fuel page s hfuel hlt hge
    obtain ⟨f, rfl⟩ : ∃ f, fuel = f + 1 := ⟨fuel - 1, by omega⟩
    have hp : page < erase_size := by simpa using hlt 0 (by omega)
    have hnext : (page + cfg.page_size) % U32 = page + cfg.page_size :=
      Nat.mod_eq_of_lt (by omega)
    simp only [erase_loop, hp, if_true, hnext]
    rw [ih f (page + cfg.page_size) _ (by omega)
      (fun k hk => by have := hlt (k + 1) (by omega); rw [Nat.add_mul] at this; omega)
      (by rw [Nat.add_mul] at hge; omega)]
    rw [List.range_succ_eq_map]
    simp only [List.map_cons, List.map_map, erase_pages, Nat.zero_mul, Nat.add_zero]
    congr 2
    apply List.map_congr_left
    intro k _
    simp only [Function.comp, Nat.succ_eq_add_one, Nat.add_mul]
    omega

/-- With 256-byte pages and `erase_size = 0xFFFFFFFF` the loop variable stays a
multiple of 256, hence below `erase_size`: the loop never exits. -/
theorem erase_loop_diverges (fuel : Nat) :
    ∀ (page : Nat) (s : State), page % 256 = 0 → page < U32 →
      erase_loop cfg4096 0xFFFFFFFF fuel page s = none := by
  induction fuel with
  | zero =>
    intro page s hmod hlt
    simp only [U32] at hlt
    have : page < 0xFFFFFFFF := by omega
    simp [erase_loop, this]
  | succ fuel ih =>
    intro page s hmod hlt
    simp only [U32] at hlt
    have hp : page < 0xFFFFFFFF := by omega
    simp only [erase_loop, hp, if_true]
    apply ih
    · simp only [cfg4096, U32]; omega
    · exact Nat.mod_lt _ (by decide)

/-- Whenever the loop exits, it has erased the pages at the successive 32-bit
values of `page` and stopped at the first one that is not below `erase_size`. -/
theorem erase_loop_some (cfg : Config) (erase_size : Nat) (fuel : Nat) :
    ∀ (page : Nat) (s s' : State), page < U32 →
      erase_loop cfg erase_size fuel page s = some s' →
      ∃ n, s' = erase_pages cfg
            ((List.range n).map (fun k => (page + k * cfg.page_size) % U32)) s ∧
        (∀ k, k < n → (page + k * cfg.page_size) % U32 < erase_size) ∧
        erase_size ≤ (page + n * cfg.page_size) % U32 := by
  induction fuel with
  | zero =>
    intro page s s' hpage h
    simp only [erase_loop] at h
    split at h
    · simp at h
    · simp only [Option.some.injEq] at h
      refine ⟨0, by simp [erase_pages, h], by simp, ?_⟩
      simp only [Nat.zero_mul, Nat.add_zero, Nat.mod_eq_of_lt hpage]
      omega
  | succ fuel ih =>
    intro page s s' hpage h
    simp only [erase_loop] at h
    split at h
    · rename_i hlt
      obtain ⟨n, hs', hbelow, hstop⟩ := ih _ _ s' (Nat.mod_lt _ (by decide)) h
      have hstep : ∀ k, ((page + cfg.page_size) % U32 + k * cfg.page_size) % U32
          = (page + (k + 1) * cfg.page_size) % U32 := by
        intro k
        rw [Nat.mod_add_mod, Nat.add_mul, Nat.one_mul]
        congr 1
        omega
      refine ⟨n + 1, ?_, ?_, ?_⟩
      · rw [hs', List.range_succ_eq_map]
        simp only [List.map_cons, List.map_map, erase_pages, Nat.zero_mul, Nat.add_zero,
          Nat.mod_eq_of_lt hpage]
        congr 2
        funext k
        simp only [Function.comp, Nat.succ_eq_add_one]
        exact hstep k
      · intro k hk
        cases k with
        | zero => simpa [Nat.mod_eq_of_lt hpage] using hlt
        | succ k =>
          rw [← hstep k]
          exact hbelow k (by omega)
      · rw [← hstep n]
        exact hstop
    · simp only [Option.some.injEq] at h
      refine ⟨0, by simp [erase_pages, h], by simp, ?_⟩
      simp only [Nat.zero_mul, Nat.add_zero, Nat.mod_eq_of_lt hpage]
      omega

/-! ## Frame lemmas -/

/-- Reading back the block just written on erased flash returns its bytes. -/
theorem buffered_write_then_read (cfg : Config) (blk : sCoredumpWorkingBuffer) (s : State)
    (buf : List Nat)
    (hwords : cfg.MEMFAULT_COREDUMP_STORAGE_WRITE_SIZE % 4 = 0)
    (hsize : cfg.MEMFAULT_COREDUMP_STORAGE_WRITE_SIZE < U32)
    (hlen : blk.data.length = cfg.MEMFAULT_COREDUMP_STORAGE_WRITE_SIZE)
    (hbytes : ∀ b ∈ blk.data, b < 256)
    (hbounds : prv_op_within_flash_bounds cfg blk.write_offset
      cfg.MEMFAULT_COREDUMP_STORAGE_WRITE_SIZE = true)
    (herased : ∀ i, i < cfg.MEMFAULT_COREDUMP_STORAGE_WRITE_SIZE →
      memory_mapped_read s.flash (cfg.PM_MEMFAULT_STORAGE_ADDRESS + blk.write_offset + i)
        = ERASED) :
    (memfault_platform_coredump_storage_buffered_write cfg blk s).1 = true ∧
    (memfault_platform_coredump_storage_read cfg blk.write_offset buf
      cfg.MEMFAULT_COREDUMP_STORAGE_WRITE_SIZE
      (memfault_platform_coredump_storage_buffered_write cfg blk s).2).1 = true ∧
    (memfault_platform_coredump_storage_read cfg blk.write_offset buf
      cfg.MEMFAULT_COREDUMP_STORAGE_WRITE_SIZE
      (memfault_platform_coredump_storage_buffered_write cfg blk s).2).2.1
        = blk.data ++ buf.drop cfg.MEMFAULT_COREDUMP_STORAGE_WRITE_SIZE := by
  simp only [memfault_platform_coredump_storage_buffered_write,
    memfault_platform_coredump_storage_read, hbounds, Bool.not_true, Bool.false_eq_true,
    if_false, true_and, nrfx_nvmc_words_write, memcpy_from_flash]
  congr 1
  apply List.ext_getElem
  · simp [hlen]
  · intro i h1 h2
    have hi : i < cfg.MEMFAULT_COREDUMP_STORAGE_WRITE_SIZE := by simpa using h1
    simp only [List.getElem_map, List.getElem_range, memory_mapped_read]
    have hU : cfg.MEMFAULT_COREDUMP_STORAGE_WRITE_SIZE < 2 ^ 32 := hsize
    rw [words_write_flash_load_words_at s.flash _ blk.data _ i hbytes (by omega)
      (by simp only [U32]; omega)]
    have he := herased i hi
    simp only [memory_mapped_read] at he
    rw [Nat.mod_add_mod, he, List.getD_eq_getElem?_getD, List.getElem?_eq_getElem h2,
      Option.getD_some]
    exact erased_and_byte _ (hbytes _ (List.getElem_mem h2))

/-- A buffered write changes no flash byte outside the `WRITE_SIZE` bytes at its
destination address. -/
theorem buffered_write_flash_frame (cfg : Config) (blk : sCoredumpWorkingBuffer) (s : State)
    (a : Nat)
    (h : ∀ j, j < cfg.MEMFAULT_COREDUMP_STORAGE_WRITE_SIZE →
      a ≠ (cfg.PM_MEMFAULT_STORAGE_ADDRESS + blk.write_offset + j) % U32) :
    (memfault_platform_coredump_storage_buffered_write cfg blk s).2.flash a = s.flash a := by
  unfold memfault_platform_coredump_storage_buffered_write
  split
  · rfl
  · simp only [nrfx_nvmc_words_write]
    apply words_write_flash_other
    intro j hj
    have hl : (load_words blk.data (cfg.MEMFAULT_COREDUMP_STORAGE_WRITE_SIZE / 4)).length
        = cfg.MEMFAULT_COREDUMP_STORAGE_WRITE_SIZE / 4 := by simp [load_words]
    rw [hl] at hj
    rw [Nat.mod_add_mod]
    exact h j (by omega)

/-- A clear changes no flash byte outside the four bytes at the start of the
region, whatever the flash-area calls return. -/
theorem storage_clear_flash_frame (cfg : Config) (open_err write_err : Int) (s : State)
    (a : Nat) (h : ∀ j, j < 4 → a ≠ (cfg.PM_MEMFAULT_STORAGE_ADDRESS + j) % U32) :
    (memfault_platform_coredump_storage_clear cfg open_err write_err s).flash a = s.flash a := by
  unfold memfault_platform_coredump_storage_clear
  by_cases ho : open_err = 0 <;> by_cases hw : write_err = 0 <;>
    simp only [ho, hw, flash_area_open, flash_area_write, ne_eq, not_true_eq_false,
      not_false_eq_true, if_true, if_false]
  · apply program_bytes_other
    intro j hj
    have hj4 : j < 4 := by simpa [word_bytes] using hj
    simpa using h j hj4

/-- Two flashes that agree on the addressed bytes give the same raw read. -/
theorem storage_read_congr (cfg : Config) (offset len : Nat) (data : List Nat) (s s' : State)
    (h : ∀ i, i < len →
      s'.flash ((cfg.PM_MEMFAULT_STORAGE_ADDRESS + offset + i) % U32)
        = s.flash ((cfg.PM_MEMFAULT_STORAGE_ADDRESS + offset + i) % U32)) :
    (memfault_platform_coredump_storage_read cfg offset data len s').1
        = (memfault_platform_coredump_storage_read cfg offset data len s).1 ∧
      (memfault_platform_coredump_storage_read cfg offset data len s').2.1
        = (memfault_platform_coredump_storage_read cfg offset data len s).2.1 := by
  unfold memfault_platform_coredump_storage_read
  split
  · exact ⟨rfl, rfl⟩
  · refine ⟨rfl, ?_⟩
    simp only [memcpy_from_flash]
    congr 1
    apply List.map_congr_left
    intro i hi
    simp only [memory_mapped_read, Nat.mod_add_mod]
    exact h i (List.mem_range.mp hi)

/-- The first `n` words of a buffer depend on its first `4 * n` bytes only. -/
theorem load_words_append_left (data rest : List Nat) (n : Nat) (h : 4 * n ≤ data.length) :
    load_words (data ++ rest) n = load_words data n := by
  unfold load_words
  apply List.map_congr_left
  intro i hi
  have hi' := List.mem_range.mp hi
  unfold load_word
  rw [List.getD_append _ _ _ _ (by omega), List.getD_append _ _ _ _ (by omega),
    List.getD_append _ _ _ _ (by omega), List.getD_append _ _ _ _ (by omega)]

/-! ## Bounds guard -/

/-- When the 32-bit sum does not wrap, the guard is the mathematical comparison. -/
theorem prv_op_within_flash_bounds_of_no_wrap (cfg : Config) (offset data_len : Nat)
    (h : offset + data_len < U32) :
    prv_op_within_flash_bounds cfg offset data_len = true ↔
      offset + data_len ≤ cfg.PM_MEMFAULT_STORAGE_SIZE := by
  simp [prv_op_within_flash_bounds, memfault_platform_coredump_storage_get_info,
    Nat.mod_eq_of_lt h]

/-- C1 (code defect): the pair `offset = 0xFFFFFFFF`, `data_len = 1` has the
mathematical sum `2 ^ 32`, larger than any region size, yet the 32-bit sum
wraps to 0 and the guard accepts the pair for every configuration. -/
theorem C1_wrapped_sum_is_accepted :
    (∀ cfg : Config, prv_op_within_flash_bounds cfg 0xFFFFFFFF 1 = true) ∧
      ¬ (0xFFFFFFFF + 1 ≤ cfg4096.PM_MEMFAULT_STORAGE_SIZE) := by
  constructor
  · intro cfg
    simp [prv_op_within_flash_bounds, U32]
  · decide

/-! ## Erase -/

/-- C2 (code defect): with 256-byte pages in a 4096-byte region the accepted
request `offset = 256`, `erase_size = 256` returns `true` and leaves the state
as it was: the page at region offset 256 is not erased, because the loop
compares the running offset against `erase_size` and not against
`offset + erase_size`. -/
theorem C2_erase_skips_requested_page :
    ∀ (fuel : Nat) (s : State),
      prv_op_within_flash_bounds cfg4096 256 256 = true ∧
      256 % cfg4096.page_size = 0 ∧
      memfault_platform_coredump_storage_erase cfg4096 fuel 256 256 s = some (true, s) := by
  intro fuel s
  refine ⟨by decide, by decide, ?_⟩
  cases fuel <;> simp [memfault_platform_coredump_storage_erase, prv_op_within_flash_bounds,
    memfault_platform_coredump_storage_get_info, cfg4096, U32, erase_loop]

/-- C3: for every page size `ps > 0` and every `(offset, erase_size)` with
`offset % ps ≠ 0`, the erase returns `false` (and does so without entering the
loop, whatever the fuel), whether or not the range is in bounds. -/
theorem C3_misaligned_erase_rejected (cfg : Config) (fuel offset erase_size : Nat) (s : State)
    (_hps : 0 < cfg.page_size) (hmis : offset % cfg.page_size ≠ 0) :
    (memfault_platform_coredump_storage_erase cfg fuel offset erase_size s).map Prod.fst
      = some false := by
  unfold memfault_platform_coredump_storage_erase
  by_cases hb : prv_op_within_flash_bounds cfg offset erase_size = true
  · simp [hb, hmis]
  · simp [hb]

/-- Witness for C3: offset 100 with 256-byte pages. -/
theorem C3_misaligned_erase_rejected_witness :
    0 < cfg4096.page_size ∧ 100 % cfg4096.page_size ≠ 0 ∧
      (memfault_platform_coredump_storage_erase cfg4096 5 100 256
        (State.init (fun _ => 0))).map Prod.fst = some false :=
  ⟨by decide, by decide,
    C3_misaligned_erase_rejected cfg4096 5 100 256 (State.init (fun _ => 0))
      (by decide) (by decide)⟩

/-! ## Buffered write and raw read -/

/-- C4: for every working block whose `write_offset` passes the bounds guard
for `MEMFAULT_COREDUMP_STORAGE_WRITE_SIZE` bytes and whose destination bytes
are in the erased state, `buffered_write` returns `true`, and a raw read of
`WRITE_SIZE` bytes at the same offset afterwards returns `true` and leaves
exactly the bytes of `blk.data` in the first `WRITE_SIZE` bytes of the buffer. -/
theorem C4_write_read_round_trip (cfg : Config) (blk : sCoredumpWorkingBuffer) (s : State)
    (buf : List Nat)
    (hwords : cfg.MEMFAULT_COREDUMP_STORAGE_WRITE_SIZE % 4 = 0)
    (hsize : cfg.MEMFAULT_COREDUMP_STORAGE_WRITE_SIZE < U32)
    (hlen : blk.data.length = cfg.MEMFAULT_COREDUMP_STORAGE_WRITE_SIZE)
    (hbytes : ∀ b ∈ blk.data, b < 256)
    (hbounds : prv_op_within_flash_bounds cfg blk.write_offset
      cfg.MEMFAULT_COREDUMP_STORAGE_WRITE_SIZE = true)
    (herased : ∀ i, i < cfg.MEMFAULT_COREDUMP_STORAGE_WRITE_SIZE →
      memory_mapped_read s.flash (cfg.PM_MEMFAULT_STORAGE_ADDRESS + blk.write_offset + i)
        = ERASED) :
    (memfault_platform_coredump_storage_buffered_write cfg blk s).1 = true ∧
    (memfault_platform_coredump_storage_read cfg blk.write_offset buf
      cfg.MEMFAULT_COREDUMP_STORAGE_WRITE_SIZE
      (memfault_platform_coredump_storage_buffered_write cfg blk s).2).1 = true ∧
    (memfault_platform_coredump_storage_read cfg blk.write_offset buf
      cfg.MEMFAULT_COREDUMP_STORAGE_WRITE_SIZE
      (memfault_platform_coredump_storage_buffered_write cfg blk s).2).2.1
        = blk.data ++ buf.drop cfg.MEMFAULT_COREDUMP_STORAGE_WRITE_SIZE := by
  simp only [memfault_platform_coredump_storage_buffered_write,
    memfault_platform_coredump_storage_read, hbounds, Bool.not_true, Bool.false_eq_true,
    if_false, true_and, nrfx_nvmc_words_write, memcpy_from_flash]
  congr 1
  apply List.ext_getElem
  · simp [hlen]
  · intro i h1 h2
    have hi : i < cfg.MEMFAULT_COREDUMP_STORAGE_WRITE_SIZE := by simpa using h1
    simp only [List.getElem_map, List.getElem_range, memory_mapped_read]
    have hU : cfg.MEMFAULT_COREDUMP_STORAGE_WRITE_SIZE < 2 ^ 32 := hsize
    rw [words_write_flash_load_words_at s.flash _ blk.data _ i hbytes (by omega)
      (by simp only [U32]; omega)]
    have he := herased i hi
    simp only [memory_mapped_read] at he
    rw [Nat.mod_add_mod, he, List.getD_eq_getElem?_getD, List.getElem?_eq_getElem h2,
      Option.getD_some]
    exact erased_and_byte _ (hbytes _ (List.getElem_mem h2))

/-- Witness for C4: a 64-byte block written at offset 0 of an erased flash. -/
theorem C4_write_read_round_trip_witness :
    prv_op_within_flash_bounds cfg4096 0 cfg4096.MEMFAULT_COREDUMP_STORAGE_WRITE_SIZE = true ∧
    (memfault_platform_coredump_storage_buffered_write cfg4096
      { data := List.range 64, write_offset := 0 } (State.init (fun _ => ERASED))).1 = true ∧
    (memfault_platform_coredump_storage_read cfg4096 0 (List.replicate 64 0) 64
      (memfault_platform_coredump_storage_buffered_write cfg4096
        { data := List.range 64, write_offset := 0 } (State.init (fun _ => ERASED))).2).2.1
      = List.range 64 := by
  have h := C4_write_read_round_trip cfg4096 { data := List.range 64, write_offset := 0 }
    (State.init (fun _ => ERASED)) (List.replicate 64 0) (by decide) (by decide) (by decide)
    (fun b hb => by have := List.mem_range.mp hb; omega) (by decide) (fun _ _ => rfl)
  refine ⟨by decide, h.1, ?_⟩
  have h2 := h.2.2
  simpa [cfg4096] using h2

/-! ## Delivery-aware read and clear -/

/-- C5: start from any state (any flash content), let `clear` succeed (both
flash-area calls return 0) and then run any further sequence of calls of the
module. In the state reached, for every `offset` and `read_len`,
`memfault_coredump_read` returns `true`, sets the first `read_len` bytes of the
buffer to zero and leaves the state, trace included, as it was: no flash read
is issued. -/
theorem C5_suppression_after_clear (cfg : Config) (fuel : Nat) (ops : List Op)
    (s0 s : State) (offset read_len : Nat) (data : List Nat)
    (hrun : run cfg fuel ops (memfault_platform_coredump_storage_clear cfg 0 0 s0) = some s) :
    memfault_coredump_read cfg offset data read_len s
      = (true, List.replicate read_len 0 ++ data.drop read_len, s) := by
  have hflag : s.s_last_coredump_cleared = true := by
    rw [run_flag cfg fuel ops _ s hrun, storage_clear_flag]
    simp
  simp [memfault_coredump_read, hflag, memset]

/-- Witness for C5: clear, then a buffered write and a delivery-aware read, then a
read of 4 bytes at offset 5000, outside the 4096-byte region. -/
theorem C5_suppression_after_clear_witness :
    memfault_coredump_read cfg4096 5000 [1, 2, 3, 4, 5] 4 witness_state_after_clear
      = (true, [0, 0, 0, 0, 5], witness_state_after_clear) :=
  C5_suppression_after_clear cfg4096 3
    [Op.storage_buffered_write { data := List.range 64, write_offset := 64 },
      Op.coredump_read 0 [] 8]
    (State.init (fun _ => 0xAB)) witness_state_after_clear 5000 4 [1, 2, 3, 4, 5] rfl

/-- C6: in every state reached from the initial state by a sequence of calls
that holds no successful clear, `memfault_coredump_read` returns the same
result, the same buffer and the same state as the raw read, for every
`offset`, `read_len` and flash content. -/
theorem C6_coredump_read_is_raw_read_before_clear (cfg : Config) (fuel : Nat) (ops : List Op)
    (flash : Nat → Nat) (s : State) (offset read_len : Nat) (data : List Nat)
    (hno : ∀ op ∈ ops, op.isSuccessfulClear = false)
    (hrun : run cfg fuel ops (State.init flash) = some s) :
    memfault_coredump_read cfg offset data read_len s
      = memfault_platform_coredump_storage_read cfg offset data read_len s := by
  have hany : ops.any Op.isSuccessfulClear = false := by
    simpa [List.any_eq_false] using hno
  have hflag : s.s_last_coredump_cleared = false := by
    rw [run_flag cfg fuel ops _ s hrun, hany]
    rfl
  simp [memfault_coredump_read, hflag]

/-- Witness for C6: after an erase and a failed clear, reads of 2 bytes at offset 0. -/
theorem C6_coredump_read_is_raw_read_before_clear_witness :
    memfault_coredump_read cfg4096 0 [7, 7, 7] 2 witness_state_no_clear
      = memfault_platform_coredump_storage_read cfg4096 0 [7, 7, 7] 2 witness_state_no_clear :=
  C6_coredump_read_is_raw_read_before_clear cfg4096 3
    [Op.storage_erase 0 256, Op.storage_clear 0 (-5)]
    (fun _ => 0xAB) witness_state_no_clear 0 2 [7, 7, 7] (by decide) rfl

/-- C7: when `flash_area_open` returns a non-zero error, or it returns 0 and
`flash_area_write` returns a non-zero error, `clear` leaves
`s_last_coredump_cleared` at its previous value, so that if it was `false` a
later `memfault_coredump_read` is the raw read; when both calls return 0 the
flag is `true` afterwards; and starting from `false` the flag is `true`
afterwards exactly when both calls return 0. -/
theorem C7_failed_clear_keeps_flag (cfg : Config) (open_err write_err : Int) (s : State) :
    ((open_err ≠ 0 ∨ (open_err = 0 ∧ write_err ≠ 0)) →
      (memfault_platform_coredump_storage_clear cfg open_err write_err s).s_last_coredump_cleared
          = s.s_last_coredump_cleared ∧
        (s.s_last_coredump_cleared = false →
          ∀ (offset read_len : Nat) (data : List Nat),
            memfault_coredump_read cfg offset data read_len
                (memfault_platform_coredump_storage_clear cfg open_err write_err s)
              = memfault_platform_coredump_storage_read cfg offset data read_len
                (memfault_platform_coredump_storage_clear cfg open_err write_err s))) ∧
    ((open_err = 0 ∧ write_err = 0) →
      (memfault_platform_coredump_storage_clear cfg open_err write_err s).s_last_coredump_cleared
        = true) ∧
    (s.s_last_coredump_cleared = false →
      ((memfault_platform_coredump_storage_clear cfg open_err write_err s).s_last_coredump_cleared
        = true ↔ (open_err = 0 ∧ write_err = 0))) := by
  have hflag := storage_clear_flag cfg open_err write_err s
  refine ⟨?_, ?_, ?_⟩
  · intro hfail
    have hkeep :
        (memfault_platform_coredump_storage_clear cfg open_err write_err s).s_last_coredump_cleared
          = s.s_last_coredump_cleared := by
      rw [hflag]
      rcases hfail with h | ⟨_, h⟩ <;> simp [h]
    refine ⟨hkeep, ?_⟩
    intro hs offset read_len data
    simp [memfault_coredump_read, hkeep, hs]
  · rintro ⟨ho, hw⟩
    rw [hflag]
    simp [ho, hw]
  · intro hs
    rw [hflag, hs]
    simp

/-- Witness for C7: a failed open, a failed write and a successful clear from the
initial state. -/
theorem C7_failed_clear_keeps_flag_witness :
    (memfault_platform_coredump_storage_clear cfg4096 (-19) 0
      (State.init (fun _ => 0xAB))).s_last_coredump_cleared = false ∧
    (memfault_platform_coredump_storage_clear cfg4096 0 (-5)
      (State.init (fun _ => 0xAB))).s_last_coredump_cleared = false ∧
    (memfault_platform_coredump_storage_clear cfg4096 0 0
      (State.init (fun _ => 0xAB))).s_last_coredump_cleared = true :=
  ⟨((C7_failed_clear_keeps_flag cfg4096 (-19) 0 (State.init (fun _ => 0xAB))).1
      (Or.inl (by decide))).1,
    ((C7_failed_clear_keeps_flag cfg4096 0 (-5) (State.init (fun _ => 0xAB))).1
      (Or.inr ⟨rfl, by decide⟩)).1,
    (C7_failed_clear_keeps_flag cfg4096 0 0 (State.init (fun _ => 0xAB))).2.1 ⟨rfl, rfl⟩⟩

/-- C8: the raw read returns `false` when the bounds guard rejects
`(offset, read_len)`; otherwise it returns `true` and byte `i` of the buffer is
the flash byte behind the 32-bit address
`PM_MEMFAULT_STORAGE_ADDRESS + offset + i`, for every `i < read_len`. A read of
one byte at `offset = size` returns `false` (the region size plus one being
representable in 32 bits), and a read of the last byte returns `true`. -/
theorem C8_raw_read_contract (cfg : Config) (offset read_len : Nat) (data : List Nat)
    (s : State) :
    (prv_op_within_flash_bounds cfg offset read_len = false →
      (memfault_platform_coredump_storage_read cfg offset data read_len s).1 = false) ∧
    (prv_op_within_flash_bounds cfg offset read_len = true →
      (memfault_platform_coredump_storage_read cfg offset data read_len s).1 = true ∧
      ∀ i, i < read_len →
        (memfault_platform_coredump_storage_read cfg offset data read_len s).2.1[i]?
          = some (memory_mapped_read s.flash (cfg.PM_MEMFAULT_STORAGE_ADDRESS + offset + i))) ∧
    (cfg.PM_MEMFAULT_STORAGE_SIZE + 1 < U32 →
      (memfault_platform_coredump_storage_read cfg cfg.PM_MEMFAULT_STORAGE_SIZE data 1 s).1
        = false) ∧
    (0 < cfg.PM_MEMFAULT_STORAGE_SIZE →
      (memfault_platform_coredump_storage_read cfg (cfg.PM_MEMFAULT_STORAGE_SIZE - 1) data 1 s).1
        = true) := by
  refine ⟨?_, ?_, ?_, ?_⟩
  · intro hb
    simp [memfault_platform_coredump_storage_read, hb]
  · intro hb
    refine ⟨by simp [memfault_platform_coredump_storage_read, hb], ?_⟩
    intro i hi
    simp only [memfault_platform_coredump_storage_read, hb, Bool.not_true, Bool.false_eq_true,
      if_false, memcpy_from_flash]
    rw [List.getElem?_append_left (by simpa using hi)]
    simp [hi, memory_mapped_read]
  · intro hsz
    have hb : prv_op_within_flash_bounds cfg cfg.PM_MEMFAULT_STORAGE_SIZE 1 = false := by
      simp [prv_op_within_flash_bounds, memfault_platform_coredump_storage_get_info,
        Nat.mod_eq_of_lt hsz]
    simp [memfault_platform_coredump_storage_read, hb]
  · intro hpos
    have hb : prv_op_within_flash_bounds cfg (cfg.PM_MEMFAULT_STORAGE_SIZE - 1) 1 = true := by
      simp only [prv_op_within_flash_bounds, memfault_platform_coredump_storage_get_info,
        decide_eq_true_eq]
      rw [Nat.sub_add_cancel hpos]
      exact Nat.mod_le _ _
    simp [memfault_platform_coredump_storage_read, hb]

/-- Witness for C8: reads of the 4096-byte region at offsets 16, 4096 and 4095. -/
theorem C8_raw_read_contract_witness :
    (memfault_platform_coredump_storage_read cfg4096 16 [0, 0, 0] 2
      (State.init (fun a => a % 251))).1 = true ∧
    (memfault_platform_coredump_storage_read cfg4096 16 [0, 0, 0] 2
      (State.init (fun a => a % 251))).2.1[1]? = some (0x000FE011 % 251) ∧
    (memfault_platform_coredump_storage_read cfg4096 4096 [0, 0, 0] 1
      (State.init (fun a => a % 251))).1 = false ∧
    (memfault_platform_coredump_storage_read cfg4096 4095 [0, 0, 0] 1
      (State.init (fun a => a % 251))).1 = true :=
  ⟨((C8_raw_read_contract cfg4096 16 2 [0, 0, 0] (State.init (fun a => a % 251))).2.1
      (by decide)).1,
    ((C8_raw_read_contract cfg4096 16 2 [0, 0, 0] (State.init (fun a => a % 251))).2.1
      (by decide)).2 1 (by decide),
    (C8_raw_read_contract cfg4096 16 2 [0, 0, 0] (State.init (fun a => a % 251))).2.2.1
      (by decide),
    (C8_raw_read_contract cfg4096 16 2 [0, 0, 0] (State.init (fun a => a % 251))).2.2.2
      (by decide)⟩

/-! ## Buffered write contract and rejection -/

/-- C9: `buffered_write` returns `false` when the bounds guard rejects
`(blk.write_offset, MEMFAULT_COREDUMP_STORAGE_WRITE_SIZE)`; otherwise it
returns `true` and the hardware accesses it issued are exactly one
`nrfx_nvmc_words_write` at the 32-bit address
`PM_MEMFAULT_STORAGE_ADDRESS + blk.write_offset` with `WRITE_SIZE / 4` words
whose bytes are those of `blk.data`; in either case it issues no page erase. -/
theorem C9_buffered_write_contract (cfg : Config) (blk : sCoredumpWorkingBuffer) (s : State)
    (hbytes : ∀ b ∈ blk.data, b < 256) :
    (prv_op_within_flash_bounds cfg blk.write_offset
        cfg.MEMFAULT_COREDUMP_STORAGE_WRITE_SIZE = false →
      (memfault_platform_coredump_storage_buffered_write cfg blk s).1 = false) ∧
    (prv_op_within_flash_bounds cfg blk.write_offset
        cfg.MEMFAULT_COREDUMP_STORAGE_WRITE_SIZE = true →
      (memfault_platform_coredump_storage_buffered_write cfg blk s).1 = true ∧
      issued_since s (memfault_platform_coredump_storage_buffered_write cfg blk s).2
        = [HwOp.nrfx_nvmc_words_write
            ((cfg.PM_MEMFAULT_STORAGE_ADDRESS + blk.write_offset) % U32)
            (load_words blk.data (cfg.MEMFAULT_COREDUMP_STORAGE_WRITE_SIZE / 4))
            (cfg.MEMFAULT_COREDUMP_STORAGE_WRITE_SIZE / 4)] ∧
      (load_words blk.data (cfg.MEMFAULT_COREDUMP_STORAGE_WRITE_SIZE / 4)).length
        = cfg.MEMFAULT_COREDUMP_STORAGE_WRITE_SIZE / 4 ∧
      ∀ i k, i < cfg.MEMFAULT_COREDUMP_STORAGE_WRITE_SIZE / 4 → k < 4 →
        word_byte ((load_words blk.data
            (cfg.MEMFAULT_COREDUMP_STORAGE_WRITE_SIZE / 4)).getD i 0) k
          = blk.data.getD (4 * i + k) 0) ∧
    (∀ address, HwOp.nrfx_nvmc_page_erase address ∉
      issued_since s (memfault_platform_coredump_storage_buffered_write cfg blk s).2) := by
  refine ⟨?_, ?_, ?_⟩
  · intro hb
    simp [memfault_platform_coredump_storage_buffered_write, hb]
  · intro hb
    refine ⟨by simp [memfault_platform_coredump_storage_buffered_write, hb], ?_, ?_, ?_⟩
    · simp [memfault_platform_coredump_storage_buffered_write, hb, issued_since,
        nrfx_nvmc_words_write]
    · simp [load_words]
    · intro i k hi hk
      have e : (load_words blk.data (cfg.MEMFAULT_COREDUMP_STORAGE_WRITE_SIZE / 4)).getD i 0
          = load_word blk.data i := by
        simp [load_words, hi]
      rw [e, word_byte_load_word blk.data hbytes i k hk]
  · intro address
    by_cases hb : prv_op_within_flash_bounds cfg blk.write_offset
        cfg.MEMFAULT_COREDUMP_STORAGE_WRITE_SIZE = true
    · simp [memfault_platform_coredump_storage_buffered_write, hb, issued_since,
        nrfx_nvmc_words_write]
    · simp [memfault_platform_coredump_storage_buffered_write, hb, issued_since]

/-- Witness for C9: a block accepted at offset 128 and a block rejected at offset 4090. -/
theorem C9_buffered_write_contract_witness :
    (memfault_platform_coredump_storage_buffered_write cfg4096
      { data := List.range 64, write_offset := 128 } (State.init (fun _ => ERASED))).1 = true ∧
    issued_since (State.init (fun _ => ERASED))
      (memfault_platform_coredump_storage_buffered_write cfg4096
        { data := List.range 64, write_offset := 128 } (State.init (fun _ => ERASED))).2
      = [HwOp.nrfx_nvmc_words_write 0x000FE080 (load_words (List.range 64) 16) 16] ∧
    (memfault_platform_coredump_storage_buffered_write cfg4096
      { data := List.range 64, write_offset := 4090 } (State.init (fun _ => ERASED))).1
      = false :=
  ⟨((C9_buffered_write_contract cfg4096 { data := List.range 64, write_offset := 128 }
      (State.init (fun _ => ERASED))
      (fun b hb => by have := List.mem_range.mp hb; omega)).2.1 (by decide)).1,
    ((C9_buffered_write_contract cfg4096 { data := List.range 64, write_offset := 128 }
      (State.init (fun _ => ERASED))
      (fun b hb => by have := List.mem_range.mp hb; omega)).2.1 (by decide)).2.1,
    (C9_buffered_write_contract cfg4096 { data := List.range 64, write_offset := 4090 }
      (State.init (fun _ => ERASED))
      (fun b hb => by have := List.mem_range.mp hb; omega)).1 (by decide)⟩

/-- C10: whenever the raw read, the erase or `buffered_write` returns `false`,
the state is the one before the call (same flash contents, same trace: no page
erase and no word programming was issued) and the read buffer is the one passed
in. This is what happens, for every fuel, when the bounds guard rejects the
range or the erase offset is misaligned, hence for every overrun whose 32-bit
sum does not wrap. No request is clamped, and this holds for every request,
an overrun whose 32-bit sum wraps included: a read that returns `true` has
copied all `len` bytes from the 32-bit addresses
`PM_MEMFAULT_STORAGE_ADDRESS + offset + i` in one access of length `len`; an
erase that returns `true` has erased the pages at the successive 32-bit values
of `page` up to the first one that is not below the requested `erase_size`
(the region size plays no part); a write that returns `true` has programmed
all `WRITE_SIZE / 4` words. So each call is performed as requested or not at
all, never on the in-bounds part only. -/
theorem C10_rejection_is_atomic (cfg : Config) (fuel offset len : Nat) (data : List Nat)
    (blk : sCoredumpWorkingBuffer) (s : State) :
    ((memfault_platform_coredump_storage_read cfg offset data len s).1 = false →
      memfault_platform_coredump_storage_read cfg offset data len s = (false, data, s)) ∧
    (∀ r, memfault_platform_coredump_storage_erase cfg fuel offset len s = some r →
      r.1 = false → r.2 = s) ∧
    ((memfault_platform_coredump_storage_buffered_write cfg blk s).1 = false →
      (memfault_platform_coredump_storage_buffered_write cfg blk s).2 = s) ∧
    (prv_op_within_flash_bounds cfg offset len = false →
      memfault_platform_coredump_storage_read cfg offset data len s = (false, data, s) ∧
      memfault_platform_coredump_storage_erase cfg fuel offset len s = some (false, s)) ∧
    (0 < cfg.page_size → offset % cfg.page_size ≠ 0 →
      memfault_platform_coredump_storage_erase cfg fuel offset len s = some (false, s)) ∧
    (prv_op_within_flash_bounds cfg blk.write_offset
        cfg.MEMFAULT_COREDUMP_STORAGE_WRITE_SIZE = false →
      memfault_platform_coredump_storage_buffered_write cfg blk s = (false, s)) ∧
    (cfg.PM_MEMFAULT_STORAGE_SIZE < offset + len → offset + len < U32 →
      memfault_platform_coredump_storage_read cfg offset data len s = (false, data, s) ∧
      memfault_platform_coredump_storage_erase cfg fuel offset len s = some (false, s)) ∧
    (cfg.PM_MEMFAULT_STORAGE_SIZE
        < blk.write_offset + cfg.MEMFAULT_COREDUMP_STORAGE_WRITE_SIZE →
      blk.write_offset + cfg.MEMFAULT_COREDUMP_STORAGE_WRITE_SIZE < U32 →
      memfault_platform_coredump_storage_buffered_write cfg blk s = (false, s)) ∧
    ((memfault_platform_coredump_storage_read cfg offset data len s).1 = true →
      issued_since s (memfault_platform_coredump_storage_read cfg offset data len s).2.2
        = [HwOp.flash_read ((cfg.PM_MEMFAULT_STORAGE_ADDRESS + offset) % U32) len] ∧
      (memfault_platform_coredump_storage_read cfg offset data len s).2.2.flash = s.flash ∧
      (memfault_platform_coredump_storage_read cfg offset data len s).2.1.length
        = len + (data.length - len) ∧
      ∀ i, i < len →
        (memfault_platform_coredump_storage_read cfg offset data len s).2.1[i]?
          = some (memory_mapped_read s.flash (cfg.PM_MEMFAULT_STORAGE_ADDRESS + offset + i))) ∧
    (offset < U32 →
      ∀ r, memfault_platform_coredump_storage_erase cfg fuel offset len s = some r →
        r.1 = true →
        ∃ n, issued_since s r.2
            = (List.range n).map (fun k => HwOp.nrfx_nvmc_page_erase
                ((cfg.PM_MEMFAULT_STORAGE_ADDRESS + (offset + k * cfg.page_size) % U32) % U32)) ∧
          (∀ k, k < n → (offset + k * cfg.page_size) % U32 < len) ∧
          len ≤ (offset + n * cfg.page_size) % U32) ∧
    ((memfault_platform_coredump_storage_buffered_write cfg blk s).1 = true →
      issued_since s (memfault_platform_coredump_storage_buffered_write cfg blk s).2
        = [HwOp.nrfx_nvmc_words_write
            ((cfg.PM_MEMFAULT_STORAGE_ADDRESS + blk.write_offset) % U32)
            (load_words blk.data (cfg.MEMFAULT_COREDUMP_STORAGE_WRITE_SIZE / 4))
            (cfg.MEMFAULT_COREDUMP_STORAGE_WRITE_SIZE / 4)] ∧
      (∀ j, j < 4 * (cfg.MEMFAULT_COREDUMP_STORAGE_WRITE_SIZE / 4) →
        4 * (cfg.MEMFAULT_COREDUMP_STORAGE_WRITE_SIZE / 4) ≤ U32 →
        (∀ b ∈ blk.data, b < 256) →
        memory_mapped_read
            (memfault_platform_coredump_storage_buffered_write cfg blk s).2.flash
            (cfg.PM_MEMFAULT_STORAGE_ADDRESS + blk.write_offset + j)
          = memory_mapped_read s.flash
              (cfg.PM_MEMFAULT_STORAGE_ADDRESS + blk.write_offset + j)
            &&& blk.data.getD j 0)) := by
  have hread : prv_op_within_flash_bounds cfg offset len = false →
      memfault_platform_coredump_storage_read cfg offset data len s = (false, data, s) ∧
      memfault_platform_coredump_storage_erase cfg fuel offset len s = some (false, s) := by
    intro hb
    simp [memfault_platform_coredump_storage_read, memfault_platform_coredump_storage_erase, hb]
  have hwrite : prv_op_within_flash_bounds cfg blk.write_offset
        cfg.MEMFAULT_COREDUMP_STORAGE_WRITE_SIZE = false →
      memfault_platform_coredump_storage_buffered_write cfg blk s = (false, s) := by
    intro hb
    simp [memfault_platform_coredump_storage_buffered_write, hb]
  refine ⟨?_, ?_, ?_, hread, ?_, hwrite, ?_, ?_, ?_, ?_, ?_⟩
  · unfold memfault_platform_coredump_storage_read
    split
    · intro _; rfl
    · intro h; simp at h
  · intro r hr hfalse
    unfold memfault_platform_coredump_storage_erase at hr
    split at hr
    · simp only [Option.some.injEq] at hr
      rw [← hr]
    · simp only at hr
      split at hr
      · simp only [Option.some.injEq] at hr
        rw [← hr]
      · simp only [Option.map_eq_some'] at hr
        obtain ⟨s', _, rfl⟩ := hr
        simp at hfalse
  · unfold memfault_platform_coredump_storage_buffered_write
    split
    · intro _; rfl
    · intro h; simp at h
  · intro _ hmis
    unfold memfault_platform_coredump_storage_erase
    by_cases hb : prv_op_within_flash_bounds cfg offset len = true
    · simp [hb, hmis]
    · simp [hb]
  · intro hover hnowrap
    apply hread
    rw [Bool.eq_false_iff, Ne, prv_op_within_flash_bounds_of_no_wrap cfg offset len hnowrap]
    omega
  · intro hover hnowrap
    apply hwrite
    rw [Bool.eq_false_iff, Ne, prv_op_within_flash_bounds_of_no_wrap cfg _ _ hnowrap]
    omega
  · intro htrue
    have hb : prv_op_within_flash_bounds cfg offset len = true := by
      by_cases hb : prv_op_within_flash_bounds cfg offset len = true
      · exact hb
      · simp [memfault_platform_coredump_storage_read, hb] at htrue
    refine ⟨?_, ?_, ?_, ?_⟩
    · simp [memfault_platform_coredump_storage_read, hb, issued_since]
    · simp [memfault_platform_coredump_storage_read, hb]
    · simp [memfault_platform_coredump_storage_read, hb, memcpy_from_flash]
    · intro i hi
      simp only [memfault_platform_coredump_storage_read, hb, Bool.not_true, Bool.false_eq_true,
        if_false, memcpy_from_flash]
      rw [List.getElem?_append_left (by simpa using hi)]
      simp [hi, memory_mapped_read]
  · intro hoff r hr htrue
    unfold memfault_platform_coredump_storage_erase at hr
    split at hr
    · simp only [Option.some.injEq] at hr
      rw [← hr] at htrue
      simp at htrue
    · simp only at hr
      split at hr
      · simp only [Option.some.injEq] at hr
        rw [← hr] at htrue
        simp at htrue
      · simp only [Option.map_eq_some'] at hr
        obtain ⟨s', hs', rfl⟩ := hr
        obtain ⟨n, hn, hbelow, hstop⟩ := erase_loop_some cfg len fuel offset s s' hoff hs'
        refine ⟨n, ?_, hbelow, hstop⟩
        simp [issued_since, hn, erase_pages_trace, Function.comp]
  · intro htrue
    have hb : prv_op_within_flash_bounds cfg blk.write_offset
        cfg.MEMFAULT_COREDUMP_STORAGE_WRITE_SIZE = true := by
      by_cases hb : prv_op_within_flash_bounds cfg blk.write_offset
          cfg.MEMFAULT_COREDUMP_STORAGE_WRITE_SIZE = true
      · exact hb
      · simp [memfault_platform_coredump_storage_buffered_write, hb] at htrue
    refine ⟨?_, ?_⟩
    · simp [memfault_platform_coredump_storage_buffered_write, hb, issued_since,
        nrfx_nvmc_words_write]
    · intro j hj hlen hbytes
      simp only [memfault_platform_coredump_storage_buffered_write, hb, Bool.not_true,
        Bool.false_eq_true, if_false, nrfx_nvmc_words_write, memory_mapped_read]
      have h := words_write_flash_load_words_at s.flash
        ((cfg.PM_MEMFAULT_STORAGE_ADDRESS + blk.write_offset) % U32) blk.data
        (cfg.MEMFAULT_COREDUMP_STORAGE_WRITE_SIZE / 4) j hbytes hj hlen
      rw [Nat.mod_add_mod] at h
      exact h

/-- Witness for C10: a read, an erase and a write that overrun the 4096-byte
region, an erase at the misaligned offset 100, and two overruns whose 32-bit
sum wraps: the read `(0xFFFFFFFF, 2)` and the erase `(0x80000000, 0x80001000)`,
both accepted and performed over their whole length. -/
theorem C10_rejection_is_atomic_witness :
    memfault_platform_coredump_storage_read cfg4096 4000 [9, 9] 200
      (State.init (fun _ => 0xAB)) = (false, [9, 9], State.init (fun _ => 0xAB)) ∧
    memfault_platform_coredump_storage_erase cfg4096 3 4000 200
      (State.init (fun _ => 0xAB)) = some (false, State.init (fun _ => 0xAB)) ∧
    memfault_platform_coredump_storage_buffered_write cfg4096
      { data := List.range 64, write_offset := 4090 } (State.init (fun _ => 0xAB))
      = (false, State.init (fun _ => 0xAB)) ∧
    (memfault_platform_coredump_storage_buffered_write cfg4096
      { data := List.range 64, write_offset := 4090 } (State.init (fun _ => 0xAB))).2
      = State.init (fun _ => 0xAB) ∧
    memfault_platform_coredump_storage_erase cfg4096 3 100 256
      (State.init (fun _ => 0xAB)) = some (false, State.init (fun _ => 0xAB)) ∧
    issued_since (State.init (fun a => a % 251))
        (memfault_platform_coredump_storage_read cfg4096 0xFFFFFFFF [9, 9, 9] 2
          (State.init (fun a => a % 251))).2.2
      = [HwOp.flash_read 0x000FDFFF 2] ∧
    (memfault_platform_coredump_storage_read cfg4096 0xFFFFFFFF [9, 9, 9] 2
      (State.init (fun a => a % 251))).2.1[1]? = some (0x000FE000 % 251) ∧
    memfault_platform_coredump_storage_erase cfg4096 16 0x80000000 0x80001000
        (State.init (fun _ => 0xAB))
      = some (true, erase_pages cfg4096 ((List.range 16).map (fun k => 0x80000000 + 256 * k))
          (State.init (fun _ => 0xAB))) ∧
    (∃ n, issued_since (State.init (fun _ => 0xAB))
          (erase_pages cfg4096 ((List.range 16).map (fun k => 0x80000000 + 256 * k))
            (State.init (fun _ => 0xAB)))
        = (List.range n).map (fun k => HwOp.nrfx_nvmc_page_erase
            ((cfg4096.PM_MEMFAULT_STORAGE_ADDRESS
              + (0x80000000 + k * cfg4096.page_size) % U32) % U32)) ∧
      (∀ k, k < n → (0x80000000 + k * cfg4096.page_size) % U32 < 0x80001000) ∧
      0x80001000 ≤ (0x80000000 + n * cfg4096.page_size) % U32) :=
  ⟨((C10_rejection_is_atomic cfg4096 3 4000 200 [9, 9]
      { data := List.range 64, write_offset := 4090 }
      (State.init (fun _ => 0xAB))).2.2.2.2.2.2.1 (by decide) (by decide)).1,
    ((C10_rejection_is_atomic cfg4096 3 4000 200 [9, 9]
      { data := List.range 64, write_offset := 4090 }
      (State.init (fun _ => 0xAB))).2.2.2.1 (by decide)).2,
    (C10_rejection_is_atomic cfg4096 3 4000 200 [9, 9]
      { data := List.range 64, write_offset := 4090 }
      (State.init (fun _ => 0xAB))).2.2.2.2.2.2.2.1 (by decide) (by decide),
    (C10_rejection_is_atomic cfg4096 3 4000 200 [9, 9]
      { data := List.range 64, write_offset := 4090 }
      (State.init (fun _ => 0xAB))).2.2.1 (by decide),
    (C10_rejection_is_atomic cfg4096 3 100 256 [9, 9]
      { data := List.range 64, write_offset := 4090 }
      (State.init (fun _ => 0xAB))).2.2.2.2.1 (by decide) (by decide),
    ((C10_rejection_is_atomic cfg4096 3 0xFFFFFFFF 2 [9, 9, 9]
      { data := List.range 64, write_offset := 4090 }
      (State.init (fun a => a % 251))).2.2.2.2.2.2.2.2.1 (by decide)).1,
    ((C10_rejection_is_atomic cfg4096 3 0xFFFFFFFF 2 [9, 9, 9]
      { data := List.range 64, write_offset := 4090 }
      (State.init (fun a => a % 251))).2.2.2.2.2.2.2.2.1 (by decide)).2.2.2 1 (by decide),
    rfl,
    (C10_rejection_is_atomic cfg4096 16 0x80000000 0x80001000 [9, 9]
      { data := List.range 64, write_offset := 4090 }
      (State.init (fun _ => 0xAB))).2.2.2.2.2.2.2.2.2.1 (by decide)
      (true, erase_pages cfg4096 ((List.range 16).map (fun k => 0x80000000 + 256 * k))
        (State.init (fun _ => 0xAB))) rfl rfl⟩

/-! ## Delivery flag, erase safety and termination -/

/-- C11: `s_last_coredump_cleared` is `false` in the initial state; `get_info`
leaves the state as it is, and the raw read, the erase, `buffered_write` and
`memfault_coredump_read` leave the flag unchanged for every state and argument.
Hence in a state reached from the initial state the flag is `true` if and only
if the sequence of calls holds a successful clear, and a flag that is `true`
stays `true` under every sequence of calls. -/
theorem C11_flag_written_only_by_successful_clear (cfg : Config) (fuel : Nat)
    (flash : Nat → Nat) (s : State) (offset len : Nat) (data : List Nat)
    (blk : sCoredumpWorkingBuffer) (ops : List Op) :
    (State.init flash).s_last_coredump_cleared = false ∧
    step cfg fuel Op.get_info s = some s ∧
    (memfault_platform_coredump_storage_read cfg offset data len s).2.2.s_last_coredump_cleared
      = s.s_last_coredump_cleared ∧
    (∀ r, memfault_platform_coredump_storage_erase cfg fuel offset len s = some r →
      r.2.s_last_coredump_cleared = s.s_last_coredump_cleared) ∧
    (memfault_platform_coredump_storage_buffered_write cfg blk s).2.s_last_coredump_cleared
      = s.s_last_coredump_cleared ∧
    (memfault_coredump_read cfg offset data len s).2.2.s_last_coredump_cleared
      = s.s_last_coredump_cleared ∧
    (∀ s', run cfg fuel ops (State.init flash) = some s' →
      (s'.s_last_coredump_cleared = true ↔ ∃ op ∈ ops, op.isSuccessfulClear = true)) ∧
    (∀ s', run cfg fuel ops s = some s' → s.s_last_coredump_cleared = true →
      s'.s_last_coredump_cleared = true) := by
  refine ⟨rfl, rfl, storage_read_flag cfg offset data len s,
    fun r hr => storage_erase_flag cfg fuel offset len s r hr,
    buffered_write_flag cfg blk s, coredump_read_flag cfg offset data len s, ?_, ?_⟩
  · intro s' hrun
    rw [run_flag cfg fuel ops _ s' hrun]
    simp [State.init]
  · intro s' hrun hs
    rw [run_flag cfg fuel ops s s' hrun, hs]
    rfl

/-- Witness for C11: the flag after a failed clear, a read and a write, and after a
successful clear followed by an erase. -/
theorem C11_flag_written_only_by_successful_clear_witness :
    (witness_state_no_clear.s_last_coredump_cleared = true ↔
      ∃ op ∈ [Op.storage_erase 0 256, Op.storage_clear 0 (-5)],
        op.isSuccessfulClear = true) ∧
    witness_state_after_clear.s_last_coredump_cleared = true :=
  ⟨(C11_flag_written_only_by_successful_clear cfg4096 3 (fun _ => 0xAB)
      (State.init (fun _ => 0xAB)) 0 0 [] { data := [], write_offset := 0 }
      [Op.storage_erase 0 256, Op.storage_clear 0 (-5)]).2.2.2.2.2.2.1
      witness_state_no_clear rfl,
    (C11_flag_written_only_by_successful_clear cfg4096 3 (fun _ => 0xAB)
      (memfault_platform_coredump_storage_clear cfg4096 0 0 (State.init (fun _ => 0xAB)))
      0 0 [] { data := [], write_offset := 0 }
      [Op.storage_buffered_write { data := List.range 64, write_offset := 64 },
        Op.coredump_read 0 [] 8]).2.2.2.2.2.2.2
      witness_state_after_clear rfl rfl⟩

/-- C12: with region size 4096, page size 256 and a 64-byte working buffer,
starting from the initial state with any flash content: `storage_erase(0, 256)`
returns `true` (given fuel for one iteration); the buffered write of a 64-byte
block at offset 0 returns `true`; `storage_read(0, 64)` returns `true` with
exactly the written bytes, hence the 16 written words; a clear whose
flash-area calls succeed sets the flag, after which
`memfault_coredump_read(0, 64)` returns `true` with 64 zero bytes; and
`storage_read(4096, 1)` returns `false`. -/
theorem C12_end_to_end_scenario (flash : Nat → Nat) (fuel : Nat) (data buf : List Nat)
    (hfuel : 1 ≤ fuel) (hlen : data.length = 64) (hbytes : ∀ b ∈ data, b < 256) :
    memfault_platform_coredump_storage_erase cfg4096 fuel 0 256 (State.init flash)
      = some (true, scenario_after_erase flash) ∧
    (memfault_platform_coredump_storage_buffered_write cfg4096
      { data := data, write_offset := 0 } (scenario_after_erase flash)).1 = true ∧
    (memfault_platform_coredump_storage_read cfg4096 0 buf 64
      (scenario_after_write flash data)).1 = true ∧
    (memfault_platform_coredump_storage_read cfg4096 0 buf 64
      (scenario_after_write flash data)).2.1 = data ++ buf.drop 64 ∧
    load_words (memfault_platform_coredump_storage_read cfg4096 0 buf 64
      (scenario_after_write flash data)).2.1 16 = load_words data 16 ∧
    (scenario_after_clear flash data buf).s_last_coredump_cleared = true ∧
    memfault_coredump_read cfg4096 0 buf 64 (scenario_after_clear flash data buf)
      = (true, List.replicate 64 0 ++ buf.drop 64, scenario_after_clear flash data buf) ∧
    (memfault_platform_coredump_storage_read cfg4096 4096 buf 1
      (scenario_after_clear flash data buf)).1 = false := by
  have herase : memfault_platform_coredump_storage_erase cfg4096 fuel 0 256 (State.init flash)
      = some (true, scenario_after_erase flash) := by
    obtain ⟨f, rfl⟩ : ∃ f, fuel = f + 1 := ⟨fuel - 1, by omega⟩
    cases f <;> simp [memfault_platform_coredump_storage_erase, prv_op_within_flash_bounds,
      memfault_platform_coredump_storage_get_info, cfg4096, U32, erase_loop,
      scenario_after_erase]
  have herased : ∀ i, i < cfg4096.MEMFAULT_COREDUMP_STORAGE_WRITE_SIZE →
      memory_mapped_read (scenario_after_erase flash).flash
        (cfg4096.PM_MEMFAULT_STORAGE_ADDRESS + 0 + i) = ERASED := by
    intro i hi
    have hi64 : i < 64 := hi
    have hpage : (0x000FE000 + 0 + i) % 2 ^ 32 / 256 = 0x000FE000 / 256 := by omega
    simp only [memory_mapped_read, scenario_after_erase, nrfx_nvmc_page_erase,
      page_erase_flash, cfg4096, U32]
    rw [if_pos hpage]
  have hrt := buffered_write_then_read cfg4096 { data := data, write_offset := 0 }
    (scenario_after_erase flash) buf (by decide) (by decide) hlen hbytes
    (show prv_op_within_flash_bounds cfg4096 0 64 = true by decide) herased
  have hflag : (scenario_after_clear flash data buf).s_last_coredump_cleared = true := by
    simp [scenario_after_clear, storage_clear_flag]
  refine ⟨herase, hrt.1, hrt.2.1, hrt.2.2, ?_, hflag, ?_, ?_⟩
  · have h := hrt.2.2
    simp only [scenario_after_write]
    rw [show (64 : Nat) = cfg4096.MEMFAULT_COREDUMP_STORAGE_WRITE_SIZE from rfl, h]
    exact load_words_append_left data _ 16 (by omega)
  · simp [memfault_coredump_read, hflag, memset]
  · simp [memfault_platform_coredump_storage_read, prv_op_within_flash_bounds,
      memfault_platform_coredump_storage_get_info, cfg4096, U32]

/-- Witness for C12: the scenario on a flash filled with `0xAB` and the block
`0, 1, ..., 63`. -/
theorem C12_end_to_end_scenario_witness :
    memfault_platform_coredump_storage_erase cfg4096 1 0 256 (State.init (fun _ => 0xAB))
      = some (true, scenario_after_erase (fun _ => 0xAB)) ∧
    (memfault_platform_coredump_storage_read cfg4096 0 (List.replicate 64 7) 64
      (scenario_after_write (fun _ => 0xAB) (List.range 64))).2.1 = List.range 64 ∧
    (memfault_platform_coredump_storage_read cfg4096 4096 (List.replicate 64 7) 1
      (scenario_after_clear (fun _ => 0xAB) (List.range 64) (List.replicate 64 7))).1
      = false := by
  have h := C12_end_to_end_scenario (fun _ => 0xAB) 1 (List.range 64) (List.replicate 64 7)
    (by decide) (by decide) (fun b hb => by have := List.mem_range.mp hb; omega)
  refine ⟨h.1, ?_, h.2.2.2.2.2.2.2⟩
  have h2 := h.2.2.2.1
  simpa using h2

/-- C13 (code defect): with size 4096 and 256-byte pages the request
`offset = 0x80000000`, `erase_size = 0x80001000` passes the bounds guard (the
32-bit sum wraps to 4096) and the call returns `true` after 16 page erases at
`PM_MEMFAULT_STORAGE_ADDRESS + 0x80000000 + 256 * k`: region offsets that are
not below the region size. -/
theorem C13_wrapped_erase_leaves_region :
    ∀ flash : Nat → Nat,
      prv_op_within_flash_bounds cfg4096 0x80000000 0x80001000 = true ∧
      (memfault_platform_coredump_storage_erase cfg4096 16 0x80000000 0x80001000
          (State.init flash)).map (fun r => (r.1, r.2.trace))
        = some (true, (List.range 16).map
            (fun k => HwOp.nrfx_nvmc_page_erase (0x800FE000 + 256 * k))) ∧
      ¬ (0x80000000 < cfg4096.PM_MEMFAULT_STORAGE_SIZE) ∧
      0x800FE000 = cfg4096.PM_MEMFAULT_STORAGE_ADDRESS + 0x80000000 := by
  intro flash
  refine ⟨by decide, ?_, by decide, by decide⟩
  rfl

/-- C14: a clear whose flash-area calls both return 0 issues, after the
`flash_area_open`, exactly one `flash_area_write` of the four zero bytes of
`empty_word` at offset 0, and changes no flash byte at a region offset `p ≥ 4`.
The result and buffer of the raw read do not depend on the value of
`s_last_coredump_cleared`, and for an in-bounds range starting at an offset
`≥ 4` the raw read after the clear returns `true` with the bytes stored before
the clear. -/
theorem C14_clear_is_marker_write_only (cfg : Config) (s : State) (offset len : Nat)
    (data : List Nat) (b : Bool) :
    issued_since s (memfault_platform_coredump_storage_clear cfg 0 0 s)
      = [HwOp.flash_area_open, HwOp.flash_area_write 0 [0, 0, 0, 0] 4] ∧
    (∀ p, 4 ≤ p → p < U32 →
      memory_mapped_read (memfault_platform_coredump_storage_clear cfg 0 0 s).flash
          (cfg.PM_MEMFAULT_STORAGE_ADDRESS + p)
        = memory_mapped_read s.flash (cfg.PM_MEMFAULT_STORAGE_ADDRESS + p)) ∧
    ((memfault_platform_coredump_storage_read cfg offset data len
          { s with s_last_coredump_cleared := b }).1
        = (memfault_platform_coredump_storage_read cfg offset data len s).1 ∧
      (memfault_platform_coredump_storage_read cfg offset data len
          { s with s_last_coredump_cleared := b }).2.1
        = (memfault_platform_coredump_storage_read cfg offset data len s).2.1) ∧
    (4 ≤ offset → offset + len ≤ cfg.PM_MEMFAULT_STORAGE_SIZE →
      cfg.PM_MEMFAULT_STORAGE_SIZE < U32 →
      (memfault_platform_coredump_storage_read cfg offset data len
          (memfault_platform_coredump_storage_clear cfg 0 0 s)).1 = true ∧
      (memfault_platform_coredump_storage_read cfg offset data len
          (memfault_platform_coredump_storage_clear cfg 0 0 s)).2.1
        = (memfault_platform_coredump_storage_read cfg offset data len s).2.1 ∧
      ∀ i, i < len →
        (memfault_platform_coredump_storage_read cfg offset data len
            (memfault_platform_coredump_storage_clear cfg 0 0 s)).2.1[i]?
          = some (memory_mapped_read s.flash (cfg.PM_MEMFAULT_STORAGE_ADDRESS + offset + i))) := by
  refine ⟨?_, ?_, ?_, ?_⟩
  · simp [memfault_platform_coredump_storage_clear, issued_since, flash_area_open,
      flash_area_write, word_bytes, word_byte]
  · intro p hp4 hpU
    simp only [memory_mapped_read]
    apply storage_clear_flash_frame
    intro j hj
    simp only [U32] at hpU ⊢
    omega
  · exact storage_read_congr cfg offset len data s _ (fun _ _ => rfl)
  · intro h4 hin hsz
    have hframe : ∀ i, i < len →
        (memfault_platform_coredump_storage_clear cfg 0 0 s).flash
            ((cfg.PM_MEMFAULT_STORAGE_ADDRESS + offset + i) % U32)
          = s.flash ((cfg.PM_MEMFAULT_STORAGE_ADDRESS + offset + i) % U32) := by
      intro i hi
      apply storage_clear_flash_frame
      intro j hj
      simp only [U32] at hsz ⊢
      omega
    have hcongr := storage_read_congr cfg offset len data s _ hframe
    have hb : prv_op_within_flash_bounds cfg offset len = true :=
      (prv_op_within_flash_bounds_of_no_wrap cfg offset len (by omega)).2 hin
    have hacc : (memfault_platform_coredump_storage_read cfg offset data len s).1 = true := by
      simp [memfault_platform_coredump_storage_read, hb]
    refine ⟨by rw [hcongr.1, hacc], hcongr.2, ?_⟩
    intro i hi
    rw [hcongr.2]
    simp only [memfault_platform_coredump_storage_read, hb, Bool.not_true, Bool.false_eq_true,
      if_false, memcpy_from_flash]
    rw [List.getElem?_append_left (by simpa using hi)]
    simp [hi, memory_mapped_read]

/-- Witness for C14: after a clear, the raw read of 2 bytes at offset 16 still returns
the stored bytes. -/
theorem C14_clear_is_marker_write_only_witness :
    (memfault_platform_coredump_storage_read cfg4096 16 [0, 0, 0] 2
      (memfault_platform_coredump_storage_clear cfg4096 0 0
        (State.init (fun a => a % 251)))).1 = true ∧
    (memfault_platform_coredump_storage_read cfg4096 16 [0, 0, 0] 2
      (memfault_platform_coredump_storage_clear cfg4096 0 0
        (State.init (fun a => a % 251)))).2.1[1]? = some (0x000FE011 % 251) :=
  ⟨((C14_clear_is_marker_write_only cfg4096 (State.init (fun a => a % 251)) 16 2 [0, 0, 0]
      true).2.2.2 (by decide) (by decide) (by decide)).1,
    ((C14_clear_is_marker_write_only cfg4096 (State.init (fun a => a % 251)) 16 2 [0, 0, 0]
      true).2.2.2 (by decide) (by decide) (by decide)).2.2 1 (by decide)⟩

/-- C15 (code defect): with size 4096 and 256-byte pages the request
`offset = 256`, `erase_size = 0xFFFFFFFF` passes the bounds guard (the 32-bit
sum wraps to 255) and the loop does not finish within any number of
iterations: `page += page_size` wraps from `0xFFFFFF00` to 0 and `page` never
reaches `erase_size`. -/
theorem C15_erase_does_not_terminate :
    ∀ (fuel : Nat) (s : State),
      prv_op_within_flash_bounds cfg4096 256 0xFFFFFFFF = true ∧
      256 % cfg4096.page_size = 0 ∧
      memfault_platform_coredump_storage_erase cfg4096 fuel 256 0xFFFFFFFF s = none := by
  intro fuel s
  refine ⟨by decide, by decide, ?_⟩
  have h := erase_loop_diverges fuel 256 s (by decide) (by decide)
  simp [memfault_platform_coredump_storage_erase, prv_op_within_flash_bounds,
    memfault_platform_coredump_storage_get_info, cfg4096, U32] at h ⊢
  exact h

/-- C16: for an accepted erase request with non-wrapping arithmetic
(`offset + erase_size ≤ size`, `offset % ps = 0`, `ps > 0`, and `page += ps`
not wrapping: `erase_size + ps ≤ 2 ^ 32`), given fuel for its iterations the
call returns `true` and the pages erased are, in this order, those at region
offsets `offset + k * ps` for `k = 0, 1, ..., n - 1`, where `n` is the number of
terms of that progression strictly below `erase_size` (not
`offset + erase_size`). Hence a request with `offset ≥ erase_size` returns
`true` and erases no page, and a request with `offset = 0` erases
`⌈erase_size / ps⌉` pages. -/
theorem C16_exact_erased_set (cfg : Config) (fuel offset erase_size : Nat) (s : State)
    (hps : 0 < cfg.page_size)
    (hin : offset + erase_size ≤ cfg.PM_MEMFAULT_STORAGE_SIZE)
    (hsize : cfg.PM_MEMFAULT_STORAGE_SIZE < U32)
    (halign : offset % cfg.page_size = 0)
    (hnowrap : erase_size + cfg.page_size ≤ U32)
    (hfuel : erase_page_count offset erase_size cfg.page_size ≤ fuel) :
    memfault_platform_coredump_storage_erase cfg fuel offset erase_size s
      = some (true, erase_pages cfg
          ((List.range (erase_page_count offset erase_size cfg.page_size)).map
            (fun k => offset + k * cfg.page_size)) s) ∧
    issued_since s (erase_pages cfg
        ((List.range (erase_page_count offset erase_size cfg.page_size)).map
          (fun k => offset + k * cfg.page_size)) s)
      = (List.range (erase_page_count offset erase_size cfg.page_size)).map
          (fun k => HwOp.nrfx_nvmc_page_erase
            ((cfg.PM_MEMFAULT_STORAGE_ADDRESS + (offset + k * cfg.page_size)) % U32)) ∧
    (∀ k, k < erase_page_count offset erase_size cfg.page_size →
      offset + k * cfg.page_size < erase_size) ∧
    erase_size ≤ offset + erase_page_count offset erase_size cfg.page_size * cfg.page_size ∧
    (erase_size ≤ offset →
      memfault_platform_coredump_storage_erase cfg fuel offset erase_size s = some (true, s)) ∧
    (offset = 0 →
      erase_page_count offset erase_size cfg.page_size
        = (erase_size + cfg.page_size - 1) / cfg.page_size) := by
  have hspec := erase_page_count_spec offset erase_size cfg.page_size hps
  have hb : prv_op_within_flash_bounds cfg offset erase_size = true :=
    (prv_op_within_flash_bounds_of_no_wrap cfg offset erase_size (by omega)).2 hin
  have hloop := erase_loop_eq_erase_pages cfg erase_size hnowrap
    (erase_page_count offset erase_size cfg.page_size) fuel offset s hfuel hspec.1 hspec.2
  have hmain : memfault_platform_coredump_storage_erase cfg fuel offset erase_size s
      = some (true, erase_pages cfg
          ((List.range (erase_page_count offset erase_size cfg.page_size)).map
            (fun k => offset + k * cfg.page_size)) s) := by
    simp [memfault_platform_coredump_storage_erase, hb, halign, hloop]
  refine ⟨hmain, ?_, hspec.1, hspec.2, ?_, ?_⟩
  · simp [issued_since, erase_pages_trace, Function.comp]
  · intro hge
    have h0 : erase_page_count offset erase_size cfg.page_size = 0 := by
      unfold erase_page_count
      rw [Nat.sub_eq_zero_of_le hge, Nat.zero_add]
      exact Nat.div_eq_of_lt (by omega)
    rw [hmain, h0]
    rfl
  · intro h0
    simp [erase_page_count, h0]

/-- Witness for C16: `erase(256, 1000)` with 256-byte pages erases the pages at
offsets 256, 512 and 768 (and not the page at 1024, which the range
`[256, 1256)` also meets). -/
theorem C16_exact_erased_set_witness :
    memfault_platform_coredump_storage_erase cfg4096 4 256 1000 (State.init (fun _ => 0))
      = some (true, erase_pages cfg4096 [256, 512, 768] (State.init (fun _ => 0))) ∧
    issued_since (State.init (fun _ => 0))
        (erase_pages cfg4096 [256, 512, 768] (State.init (fun _ => 0)))
      = [HwOp.nrfx_nvmc_page_erase 0x000FE100, HwOp.nrfx_nvmc_page_erase 0x000FE200,
          HwOp.nrfx_nvmc_page_erase 0x000FE300] :=
  ⟨(C16_exact_erased_set cfg4096 4 256 1000 (State.init (fun _ => 0)) (by decide) (by decide)
      (by decide) (by decide) (by decide) (by decide)).1,
    (C16_exact_erased_set cfg4096 4 256 1000 (State.init (fun _ => 0)) (by decide) (by decide)
      (by decide) (by decide) (by decide) (by decide)).2.1⟩

/-- C17: for a buffered write at `write_offset = O` with
`O + WRITE_SIZE ≤ size` (no overflow), the write is accepted, every flash byte
of the region at an offset outside `[O, O + WRITE_SIZE)` is unchanged, a raw
read of an in-bounds range disjoint from `[O, O + WRITE_SIZE)` returns `true`
with the same bytes as before the write, and `s_last_coredump_cleared` is
unchanged. -/
theorem C17_buffered_write_frame (cfg : Config) (blk : sCoredumpWorkingBuffer) (s : State)
    (offset len : Nat) (data : List Nat)
    (hin : blk.write_offset + cfg.MEMFAULT_COREDUMP_STORAGE_WRITE_SIZE
      ≤ cfg.PM_MEMFAULT_STORAGE_SIZE)
    (hsize : cfg.PM_MEMFAULT_STORAGE_SIZE < U32) :
    (memfault_platform_coredump_storage_buffered_write cfg blk s).1 = true ∧
    (∀ p, p < cfg.PM_MEMFAULT_STORAGE_SIZE →
      ¬ (blk.write_offset ≤ p ∧
        p < blk.write_offset + cfg.MEMFAULT_COREDUMP_STORAGE_WRITE_SIZE) →
      memory_mapped_read (memfault_platform_coredump_storage_buffered_write cfg blk s).2.flash
          (cfg.PM_MEMFAULT_STORAGE_ADDRESS + p)
        = memory_mapped_read s.flash (cfg.PM_MEMFAULT_STORAGE_ADDRESS + p)) ∧
    (offset + len ≤ cfg.PM_MEMFAULT_STORAGE_SIZE →
      (offset + len ≤ blk.write_offset ∨
        blk.write_offset + cfg.MEMFAULT_COREDUMP_STORAGE_WRITE_SIZE ≤ offset) →
      (memfault_platform_coredump_storage_read cfg offset data len
          (memfault_platform_coredump_storage_buffered_write cfg blk s).2).1 = true ∧
      (memfault_platform_coredump_storage_read cfg offset data len
          (memfault_platform_coredump_storage_buffered_write cfg blk s).2).2.1
        = (memfault_platform_coredump_storage_read cfg offset data len s).2.1) ∧
    (memfault_platform_coredump_storage_buffered_write cfg blk s).2.s_last_coredump_cleared
      = s.s_last_coredump_cleared := by
  have hU : cfg.PM_MEMFAULT_STORAGE_SIZE < 2 ^ 32 := hsize
  have hb : prv_op_within_flash_bounds cfg blk.write_offset
      cfg.MEMFAULT_COREDUMP_STORAGE_WRITE_SIZE = true :=
    (prv_op_within_flash_bounds_of_no_wrap cfg _ _ (by simp only [U32]; omega)).2 hin
  refine ⟨by simp [memfault_platform_coredump_storage_buffered_write, hb], ?_, ?_,
    buffered_write_flag cfg blk s⟩
  · intro p hp hout
    simp only [memory_mapped_read]
    apply buffered_write_flash_frame
    intro j hj
    simp only [U32]
    omega
  · intro hrin hdisj
    have hframe : ∀ i, i < len →
        (memfault_platform_coredump_storage_buffered_write cfg blk s).2.flash
            ((cfg.PM_MEMFAULT_STORAGE_ADDRESS + offset + i) % U32)
          = s.flash ((cfg.PM_MEMFAULT_STORAGE_ADDRESS + offset + i) % U32) := by
      intro i hi
      apply buffered_write_flash_frame
      intro j hj
      simp only [U32]
      omega
    have hcongr := storage_read_congr cfg offset len data s _ hframe
    have hrb : prv_op_within_flash_bounds cfg offset len = true :=
      (prv_op_within_flash_bounds_of_no_wrap cfg offset len (by simp only [U32]; omega)).2 hrin
    have hacc : (memfault_platform_coredump_storage_read cfg offset data len s).1 = true := by
      simp [memfault_platform_coredump_storage_read, hrb]
    exact ⟨by rw [hcongr.1, hacc], hcongr.2⟩

/-- Witness for C17: a write at offset 128 does not change what a read of the first
64 bytes returns. -/
theorem C17_buffered_write_frame_witness :
    (memfault_platform_coredump_storage_read cfg4096 0 [] 64
      (memfault_platform_coredump_storage_buffered_write cfg4096
        { data := List.range 64, write_offset := 128 }
        (State.init (fun a => a % 251))).2).2.1
      = (memfault_platform_coredump_storage_read cfg4096 0 [] 64
          (State.init (fun a => a % 251))).2.1 ∧
    (memfault_platform_coredump_storage_buffered_write cfg4096
      { data := List.range 64, write_offset := 128 }
      (State.init (fun a => a % 251))).2.s_last_coredump_cleared = false :=
  ⟨((C17_buffered_write_frame cfg4096 { data := List.range 64, write_offset := 128 }
      (State.init (fun a => a % 251)) 0 64 [] (by decide) (by decide)).2.2.1
      (by decide) (Or.inl (by decide))).2,
    (C17_buffered_write_frame cfg4096 { data := List.range 64, write_offset := 128 }
      (State.init (fun a => a % 251)) 0 64 [] (by decide) (by decide)).2.2.2⟩

end MemfaultFlash
